import Mathlib

/-!
Shallow embedding of the auto-battler battle engine
(`src/board.py`, `src/config.py`, `src/simulation.py`) and of the parts of the
orchestrator (`src/server.py`) that the claims refer to.

Modelling conventions, used consistently below:
* Python floats are embedded as exact rationals (`ℚ`); all float values
  appearing in the engine's configuration are exactly representable.
* Python dicts are embedded as insertion-ordered association lists with the
  dict operations `dget` / `dset` / `dpop` (lookup, update-in-place-or-append,
  remove); `dict.values()` iteration is list order, as in CPython.
* The occupancy key `f"{tile.id}:{owner_id}"` and the tile id `f"{row}-{col}"`
  are embedded structurally as the pairs they injectively encode:
  `(row, col) × owner` and `(row, col)`.
* `math.hypot` is kept abstract where its exact value feeds back into the
  state: the combat step takes a square-root function `sqrtQ : ℚ → ℚ` and
  computes `hypot dx dy` as `sqrtQ (dx^2 + dy^2)`.  Theorems about targeting,
  statuses and counters are proved for every `sqrtQ`; concrete executions
  instantiate it with `ratSqrt`, which is the exact square root on the
  perfect-square radicands produced by the axis-aligned traces used here.
  Comparisons of distances in `find_target` are embedded by the (exactly
  equivalent, since `Real.sqrt` is strictly monotone on nonnegatives)
  comparisons of squared distances.
* The tile list `self.tiles` is created once in `BattleSimulation.__init__`
  from the deterministic `build_board()` and never mutated; it is embedded as
  the global constant `build_board` rather than as a field of the state.
-/

namespace AutoBattler

/-- Lookup in an insertion-ordered association list (Python `dict.get`). -/
def dget {K V : Type} [DecidableEq K] (k : K) : List (K × V) → Option V
  | [] => none
  | (k', v) :: rest => if k' = k then some v else dget k rest

/-- Update-or-append in an association list (Python `dict[k] = v`): an existing
key keeps its position, a new key is appended, as in CPython dicts. -/
def dset {K V : Type} [DecidableEq K] (k : K) (v : V) : List (K × V) → List (K × V)
  | [] => [(k, v)]
  | (k', v') :: rest => if k' = k then (k', v) :: rest else (k', v') :: dset k v rest

/-- Removal from an association list (Python `dict.pop(k, None)`). -/
def dpop {K V : Type} [DecidableEq K] (k : K) : List (K × V) → List (K × V)
  | [] => []
  | (k', v') :: rest => if k' = k then rest else (k', v') :: dpop k rest

/-- Python `set.add` on an insertion-ordered set embedded as a duplicate-free
list: add the element at the end if it is not present. -/
def insertSet (x : Int) (l : List Int) : List Int := if x ∈ l then l else l ++ [x]

-- ---------------------------------------------------------------------------
-- config.py
-- ---------------------------------------------------------------------------

def SCREEN_WIDTH : ℚ := 1420
def SCREEN_HEIGHT : ℚ := 960
def BOARD_ROWS_PER_SIDE : Int := 4
def BOARD_ROWS : Int := BOARD_ROWS_PER_SIDE * 2
def BOARD_COLS : Int := 7
def HEX_RADIUS : ℚ := 38
def BENCH_ROWS : Int := 1
def BENCH_GAP : ℚ := 35
def AI_OWNER_ID : Int := -1
def TICKS_PER_SECOND : ℚ := 20
/-- `ATTACK_DELAY_TICKS = TICKS_PER_SECOND` (= 20), used as an integer tick count. -/
def ATTACK_DELAY_TICKS : Int := 20
def BULLET_HIT_RADIUS : ℚ := 14
/-- `BULLET_TTL_TICKS = TICKS_PER_SECOND * 3` (= 60), an integer tick count. -/
def BULLET_TTL_TICKS : Int := 60
def MELEE_RANGE_THRESHOLD : ℚ := 90
def ACCEL_ATTACK_FACTOR : Int := 2
def PLAYER_START_HEALTH : Int := 20
def LOSS_HEALTH_PENALTY : Int := 2

/-- One entry of the `UNIT_STATS` catalog. -/
structure UnitStats where
  hp : ℚ
  dmg : ℚ
  range : ℚ
  speed : ℚ
  cost : Nat
  deriving DecidableEq, Repr

/-- The `UNIT_STATS` dict: `None` exactly for the unit types the catalog does
not contain (a lookup of such a type in the source raises `KeyError`). -/
def UNIT_STATS : String → Option UnitStats
  | "Vanguard" => some ⟨1500, 10, 60, 1.8, 1⟩
  | "Ranger" => some ⟨80, 18, 260, 2.2, 2⟩
  | "Mage" => some ⟨70, 30, 180, 1.6, 3⟩
  | _ => none

-- ---------------------------------------------------------------------------
-- board.py
-- ---------------------------------------------------------------------------

/-- A hex tile.  `side` is derived (the source computes it once in the
constructor from `row` and `is_bench`; it is a pure function of those). -/
structure HexTile where
  row : Int
  col : Int
  center_x : ℚ
  center_y : ℚ
  is_bench : Bool
  deriving DecidableEq, Repr

/-- `HexTile._assign_side`. -/
def HexTile.side (t : HexTile) : String :=
  if t.is_bench then "bench"
  else if t.row < BOARD_ROWS_PER_SIDE then "enemy"
  else if t.row < BOARD_ROWS_PER_SIDE * 2 then "friendly"
  else "neutral"

/-- `HexTile.id`, the string `f"{row}-{col}"`, embedded as the pair it
injectively encodes. -/
def HexTile.tid (t : HexTile) : Int × Int := (t.row, t.col)

/-- The `start_x` of `build_board()` (board footprint centered horizontally). -/
def boardStartX : ℚ :=
  let r := HEX_RADIUS
  let centerSpanX := r * (((BOARD_COLS : ℚ) - 1) * 1.732 + 0.866)
  let totalWidth := centerSpanX + 2 * r
  (SCREEN_WIDTH - totalWidth) / 2 + r

/-- The `start_y` of `build_board()` (small top margin, vertically centered). -/
def boardStartY : ℚ :=
  let r := HEX_RADIUS
  let centerSpanY := r * (1.5 * ((BOARD_ROWS : ℚ) - 1))
  let benchSpanY := if BENCH_ROWS > 0 then r * (1.5 * ((BENCH_ROWS : ℚ) - 1)) else 0
  let totalHeight := centerSpanY + benchSpanY + BENCH_GAP + 2 * r
  max 80 ((SCREEN_HEIGHT - totalHeight) / 2 + r)

/-- One battlefield tile of `build_board()` at grid position (row, col). -/
def mkBoardTile (row col : Int) : HexTile :=
  { row := row, col := col,
    center_x := boardStartX + (col : ℚ) * (HEX_RADIUS * 1.732) +
      (if row % 2 = 0 then 0 else HEX_RADIUS * 0.866),
    center_y := boardStartY + (row : ℚ) * (HEX_RADIUS * 1.5),
    is_bench := false }

/-- One bench tile of `build_board()`: bench rows sit below the battlefield. -/
def mkBenchTile (benchRow col : Int) : HexTile :=
  let globalRow : Int := BOARD_ROWS + benchRow
  let benchStartY : ℚ := boardStartY + (BOARD_ROWS : ℚ) * (HEX_RADIUS * 1.5) + BENCH_GAP
  { row := globalRow, col := col,
    center_x := boardStartX + (col : ℚ) * (HEX_RADIUS * 1.732) +
      (if globalRow % 2 = 0 then 0 else HEX_RADIUS * 0.866),
    center_y := benchStartY + (benchRow : ℚ) * (HEX_RADIUS * 1.5),
    is_bench := true }

/-- `build_board()`: the battlefield rows followed by the bench rows, row-major. -/
def build_board : List HexTile :=
  ((List.range BOARD_ROWS.toNat).map (fun rowN : Nat =>
    (List.range BOARD_COLS.toNat).map (fun colN : Nat =>
      mkBoardTile (rowN : Int) (colN : Int)))).flatten ++
  ((List.range BENCH_ROWS.toNat).map (fun benchRowN : Nat =>
    (List.range BOARD_COLS.toNat).map (fun colN : Nat =>
      mkBenchTile (benchRowN : Int) (colN : Int)))).flatten

/-- `find_tile(tiles, row, col)` over the engine's tile list. -/
def find_tile (row col : Int) : Option HexTile :=
  build_board.find? (fun t => t.row == row && t.col == col)

/-- `tile_lookup(tiles)`: the dict from tile id to tile. -/
def tile_lookup : List ((Int × Int) × HexTile) :=
  build_board.map (fun t => (t.tid, t))

/-- `self.tile_map.get(tid)`. -/
def tmGet (tid : Int × Int) : Option HexTile := dget tid tile_lookup

-- ---------------------------------------------------------------------------
-- simulation.py: unit / bullet state
-- ---------------------------------------------------------------------------

/-- Unit ids are `uuid4` strings in the source. -/
abbrev UnitId := String

/-- `UnitState`.  Fields in source order; `tile_id`/`home_tile_id` hold the
structural tile id.  `attack_cooldown` is an `int` in Python (it is only ever
assigned integers) and is embedded as `Int` because nothing in the source
clamps it at zero. -/
structure UnitState where
  id : UnitId
  owner_id : Int
  unit_type : String
  max_hp : ℚ
  hp : ℚ
  damage : ℚ
  attack_range : ℚ
  move_speed : ℚ
  status : String
  tile_id : Option (Int × Int)
  home_tile_id : Option (Int × Int)
  x : ℚ
  y : ℚ
  attack_cooldown : Int
  last_attack_tick : Int
  match_id : Option Nat
  deriving DecidableEq, Repr

/-- `UnitState.__init__(owner_id, unit_type)`: the stats lookup raises
`KeyError` on an unknown type, so the embedding is `Option`-valued.  The
caller supplies the fresh uuid. -/
def mkUnit (id : UnitId) (owner_id : Int) (unit_type : String) : Option UnitState :=
  (UNIT_STATS unit_type).map (fun stats =>
    { id := id
      owner_id := owner_id
      unit_type := unit_type
      max_hp := stats.hp
      hp := stats.hp
      damage := stats.dmg
      attack_range := stats.range
      -- speed scaled to the server tick rate (baseline 60fps)
      move_speed := stats.speed * (60 / TICKS_PER_SECOND)
      status := "bench"
      tile_id := none
      home_tile_id := none
      x := 0
      y := 0
      attack_cooldown := 0
      last_attack_tick := -1000
      match_id := none })

/-- `BulletState` (constructor defaults included: speed scaled to tick
cadence, `active = True`). -/
structure BulletState where
  x : ℚ
  y : ℚ
  target_id : UnitId
  speed : ℚ
  damage : ℚ
  active : Bool
  spawn_tick : Int
  match_id : Option Nat
  visible : Bool
  deriving DecidableEq, Repr

-- ---------------------------------------------------------------------------
-- simulation.py: BattleSimulation state and dict-of-units helpers
-- ---------------------------------------------------------------------------

/-- `BattleSimulation`'s mutable state.  `units` embeds the insertion-ordered
dict `Dict[str, UnitState]` whose key is always the unit's own `id`;
`tile_occupants` embeds `Dict[str, str]` with key `f"{tile.id}:{owner_id}"`. -/
structure BattleSimulation where
  units : List UnitState
  tile_occupants : List (((Int × Int) × Int) × UnitId)
  bullets : List BulletState
  phase : String
  tick : Int
  pairs : List (Int × Int)
  accelerated : Bool
  deriving DecidableEq, Repr

/-- `BattleSimulation.__init__`. -/
def initSim : BattleSimulation :=
  { units := [], tile_occupants := [], bullets := [], phase := "placement",
    tick := 0, pairs := [], accelerated := false }

/-- `self.units.get(uid)`. -/
def uget (uid : UnitId) : List UnitState → Option UnitState
  | [] => none
  | u :: rest => if u.id = uid then some u else uget uid rest

/-- Write a unit back into the units dict under its own id
(`self.units[u.id] = u`, and in-place mutation of a looked-up unit object):
replaces the entry with the same id in place, otherwise appends. -/
def uset (u : UnitState) : List UnitState → List UnitState
  | [] => [u]
  | v :: rest => if v.id = u.id then u :: rest else v :: uset u rest

/-- `self.units.pop(uid, None)`. -/
def upop (uid : UnitId) : List UnitState → List UnitState
  | [] => []
  | v :: rest => if v.id = uid then rest else v :: upop uid rest

-- ---------------------------------------------------------------------------
-- simulation.py: unit and placement management
-- ---------------------------------------------------------------------------

/-- `spawn_unit(owner_id, unit_type)`: creates the unit and stores it under its
fresh uuid (supplied by the caller here); `None` when the stats lookup inside
`UnitState.__init__` would raise. -/
def spawn_unit (s : BattleSimulation) (id : UnitId) (owner_id : Int) (unit_type : String) :
    Option (UnitState × BattleSimulation) :=
  (mkUnit id owner_id unit_type).map (fun u => (u, { s with units := uset u s.units }))

/-- `place_unit_on_tile(unit_id, row, col, allow_enemy=False, allowed_side=None)`.
Returns the source's boolean together with the post-state. -/
def place_unit_on_tile (s : BattleSimulation) (unit_id : UnitId) (row col : Int)
    (allow_enemy : Bool := false) (allowed_side : Option String := none) :
    Bool × BattleSimulation :=
  match uget unit_id s.units with
  | none => (false, s)
  | some unit =>
    match find_tile row col with
    | none => (false, s)
    | some tile =>
      if tile.is_bench = true ∨ s.phase ≠ "placement" then (false, s)
      else if (match allowed_side with
               | none => false
               | some side =>
                 decide (tile.side ≠ side) && !(allow_enemy && tile.side == "enemy")) = true then
        (false, s)
      else
        let occ_key := (tile.tid, unit.owner_id)
        match dget occ_key s.tile_occupants with
        | some occupant =>
          if occupant ≠ unit_id then (false, s)
          else
            let occ1 := match unit.tile_id with
              | some prev => dpop (prev, unit.owner_id) s.tile_occupants
              | none => s.tile_occupants
            let unit' := { unit with
              tile_id := some tile.tid
              home_tile_id := if tile.side = "friendly" then some tile.tid else unit.home_tile_id
              x := tile.center_x, y := tile.center_y
              status := "board" }
            (true, { s with units := uset unit' s.units,
                            tile_occupants := dset occ_key unit.id occ1 })
        | none =>
          let occ1 := match unit.tile_id with
            | some prev => dpop (prev, unit.owner_id) s.tile_occupants
            | none => s.tile_occupants
          let unit' := { unit with
            tile_id := some tile.tid
            home_tile_id := if tile.side = "friendly" then some tile.tid else unit.home_tile_id
            x := tile.center_x, y := tile.center_y
            status := "board" }
          (true, { s with units := uset unit' s.units,
                          tile_occupants := dset occ_key unit.id occ1 })

/-- `move_unit_to_bench(unit_id)`. -/
def move_unit_to_bench (s : BattleSimulation) (unit_id : UnitId) :
    Bool × BattleSimulation :=
  match uget unit_id s.units with
  | none => (false, s)
  | some unit =>
    let occ1 := match unit.tile_id with
      | some tid => dpop (tid, unit.owner_id) s.tile_occupants
      | none => s.tile_occupants
    let unit' := { unit with tile_id := none, status := "bench", x := 0, y := 0 }
    (true, { s with units := uset unit' s.units, tile_occupants := occ1 })

/-- `remove_unit(unit_id)`. -/
def remove_unit (s : BattleSimulation) (unit_id : UnitId) : BattleSimulation :=
  match uget unit_id s.units with
  | none => s
  | some unit =>
    let occ1 := match unit.tile_id with
      | some tid => dpop (tid, unit.owner_id) s.tile_occupants
      | none => s.tile_occupants
    { s with units := upop unit_id s.units, tile_occupants := occ1 }

/-- `mirror_tile(tile, to_side)`. -/
def mirror_tile (tile : HexTile) (to_side : String) : Option HexTile :=
  if tile.is_bench = true then some tile
  else if to_side = "enemy" ∧ tile.side = "friendly" then
    find_tile (BOARD_ROWS_PER_SIDE - 1 - (tile.row - BOARD_ROWS_PER_SIDE))
      ((BOARD_COLS - 1) - tile.col)
  else if to_side = "friendly" ∧ tile.side = "enemy" then
    find_tile (BOARD_ROWS_PER_SIDE + (BOARD_ROWS_PER_SIDE - 1 - tile.row))
      ((BOARD_COLS - 1) - tile.col)
  else some tile

/-- Stable insertion of a tile into a row-sorted list, ascending rows
(ties keep earlier elements first, like Python's stable `list.sort`). -/
def insTileAsc (a : HexTile) : List HexTile → List HexTile
  | [] => [a]
  | b :: rest => if a.row < b.row then a :: b :: rest else b :: insTileAsc a rest

/-- Stable insertion, descending rows (`reverse=True`). -/
def insTileDesc (a : HexTile) : List HexTile → List HexTile
  | [] => [a]
  | b :: rest => if b.row < a.row then a :: b :: rest else b :: insTileDesc a rest

/-- `find_open_tile(side, owner_id)`: non-bench tiles of the side, stably
sorted by row (descending for the friendly side), first with a free
per-owner occupancy slot. -/
def find_open_tile (s : BattleSimulation) (side : String) (owner_id : Int) :
    Option HexTile :=
  let candidates := build_board.filter (fun t => !t.is_bench && t.side == side)
  let sorted := if side = "friendly" then
      candidates.foldl (fun acc t => insTileDesc t acc) []
    else
      candidates.foldl (fun acc t => insTileAsc t acc) []
  sorted.find? (fun t => (dget (t.tid, owner_id) s.tile_occupants).isNone)

/-- The body of `move_owner_to_side`'s loop for a single unit (looked up by id
so that later iterations see earlier mutations, as with the shared objects in
the source). -/
def moveOwnerStep (side : String) (owner_id : Int) (s : BattleSimulation)
    (uid : UnitId) : BattleSimulation :=
  match uget uid s.units with
  | none => s
  | some unit =>
    match unit.home_tile_id with
    | none => s
    | some home_tid =>
      match tmGet home_tid with
      | none => s
      | some home_tile =>
        let target0 : Option HexTile :=
          if side ≠ "friendly" then mirror_tile home_tile side else some home_tile
        let target1 : Option HexTile :=
          match target0 with
          | some t => some t
          | none => find_open_tile s side owner_id
        match target1 with
        | none => s
        | some tt =>
          let tfin : Option HexTile :=
            match dget (tt.tid, owner_id) s.tile_occupants with
            | some occ =>
              if occ ≠ uid then find_open_tile s side owner_id else some tt
            | none => some tt
          match tfin with
          | none => s
          | some target =>
            let occ1 := match unit.tile_id with
              | some tid => dpop (tid, unit.owner_id) s.tile_occupants
              | none => s.tile_occupants
            let unit' := { unit with
              tile_id := some target.tid
              x := target.center_x, y := target.center_y
              status := "board" }
            { s with units := uset unit' s.units,
                     tile_occupants := dset (target.tid, owner_id) unit.id occ1 }

/-- `move_owner_to_side(owner_id, side)`: iterates over a snapshot of the
owner's units. -/
def move_owner_to_side (s : BattleSimulation) (owner_id : Int) (side : String) :
    BattleSimulation :=
  ((s.units.filter (fun u => u.owner_id == owner_id)).map (fun u => u.id)).foldl
    (moveOwnerStep side owner_id) s

/-- The body of `restore_home_positions`'s loop for one unit. -/
def restoreStep (s : BattleSimulation) (uid : UnitId) : BattleSimulation :=
  match uget uid s.units with
  | none => s
  | some unit =>
    let unit0 := { unit with match_id := none }
    match unit0.home_tile_id.bind tmGet with
    | some tile =>
      let unit' := { unit0 with
        tile_id := some tile.tid
        x := tile.center_x, y := tile.center_y
        status := "board" }
      { s with units := uset unit' s.units,
               tile_occupants := dset (tile.tid, unit0.owner_id) unit0.id s.tile_occupants }
    | none =>
      let occ1 := match unit0.tile_id with
        | some tid => dpop (tid, unit0.owner_id) s.tile_occupants
        | none => s.tile_occupants
      let unit' := { unit0 with tile_id := none, status := "bench" }
      { s with units := uset unit' s.units, tile_occupants := occ1 }

/-- `restore_home_positions()`: clears occupancy, then walks every unit. -/
def restore_home_positions (s : BattleSimulation) : BattleSimulation :=
  let s1 := { s with tile_occupants := [] }
  (s1.units.map (fun u => u.id)).foldl restoreStep s1

/-- `prepare_pairs(pairs)`. -/
def prepare_pairs (s : BattleSimulation) (pairs : List (Int × Int)) :
    BattleSimulation :=
  let s1 := { s with pairs := pairs, tile_occupants := [] }
  let s2 := (pairs.enum).foldl (fun acc (pe : Nat × Int × Int) =>
    let pair_id := pe.1
    let bottom := pe.2.1
    let top := pe.2.2
    let acc1 := move_owner_to_side acc bottom "friendly"
    let acc2 := move_owner_to_side acc1 top "enemy"
    { acc2 with units := acc2.units.map (fun u =>
        if u.owner_id = bottom ∨ u.owner_id = top then { u with match_id := some pair_id }
        else u) }) s1
  let paired_ids := pairs.map Prod.fst ++ pairs.map Prod.snd
  (s2.units.map (fun u => u.id)).foldl (fun acc uid =>
    match uget uid acc.units with
    | none => acc
    | some u =>
      if u.owner_id ∉ paired_ids ∧ u.tile_id ≠ none then
        let acc1 := (move_unit_to_bench acc uid).2
        match uget uid acc1.units with
        | none => acc1
        | some u1 => { acc1 with units := uset { u1 with match_id := none } acc1.units }
      else acc) s2

-- ---------------------------------------------------------------------------
-- simulation.py: combat loop
-- ---------------------------------------------------------------------------

/-- `UnitState.reset_for_placement(tiles)`. -/
def reset_for_placement (u : UnitState) : UnitState :=
  let u1 := { u with hp := u.max_hp }
  let u2 := match u1.tile_id.bind tmGet with
    | some tile => { u1 with x := tile.center_x, y := tile.center_y }
    | none => u1
  { u2 with
    status := if u2.tile_id ≠ none then "board" else "bench"
    attack_cooldown := 0
    last_attack_tick := -1000 }

/-- `start_combat()`. -/
def start_combat (s : BattleSimulation) : BattleSimulation :=
  { s with phase := "combat", tick := 0, bullets := [], accelerated := false,
           units := s.units.map reset_for_placement }

/-- The per-unit normalization of `end_combat()`'s loop: every non-bench unit
becomes a board unit with zero cooldown and full hp, recentered on its tile. -/
def endNormalize (u : UnitState) : UnitState :=
  if u.status ≠ "bench" then
    let u1 := { u with status := "board", attack_cooldown := 0, hp := u.max_hp }
    match u1.tile_id.bind tmGet with
    | some tile => { u1 with x := tile.center_x, y := tile.center_y }
    | none => u1
  else u

/-- `end_combat()`: back to placement, restore home positions, clear pairs,
then normalize every non-bench unit. -/
def end_combat (s : BattleSimulation) : BattleSimulation :=
  let s1 := restore_home_positions { s with phase := "placement", bullets := [] }
  let s2 := { s1 with pairs := [] }
  { s2 with units := s2.units.map endNormalize }

/-- Squared Euclidean displacement between a seeker and a candidate, the
radicand of the source's `math.hypot(unit.x - seeker.x, unit.y - seeker.y)`. -/
def distSq (seeker u : UnitState) : ℚ :=
  (u.x - seeker.x) ^ 2 + (u.y - seeker.y) ^ 2

/-- The skip condition of `find_target`'s loop. -/
def targetSkip (seeker u : UnitState) : Prop :=
  u.owner_id = seeker.owner_id ∨ u.status ≠ "board" ∨ u.hp ≤ 0 ∨
    u.match_id ≠ seeker.match_id

instance (seeker u : UnitState) : Decidable (targetSkip seeker u) := by
  unfold targetSkip; infer_instance

/-- The loop of `find_target`: runs over the remaining units carrying the
current best candidate.  The source compares `math.hypot` values (with
`min_dist` starting at infinity); this embedding compares their squares,
which decides exactly the same comparisons since `Real.sqrt` is strictly
monotone on nonnegative reals. -/
def findTargetAux (seeker : UnitState) : List UnitState → Option UnitState → Option UnitState
  | [], best => best
  | u :: rest, best =>
    if targetSkip seeker u then findTargetAux seeker rest best
    else
      match best with
      | none => findTargetAux seeker rest (some u)
      | some c =>
        if distSq seeker u < distSq seeker c then findTargetAux seeker rest (some u)
        else findTargetAux seeker rest (some c)

/-- `find_target(seeker)`. -/
def find_target (s : BattleSimulation) (seeker : UnitState) : Option UnitState :=
  findTargetAux seeker s.units none

/-- One entry of `match_snapshots()`. -/
structure Snap where
  alive : List Int
  hp_totals : List (Int × ℚ)
  participants : List Int
  deriving DecidableEq, Repr

/-- `match_snapshots()`: per match id (insertion order of first contributing
unit), the owners with a living board unit, the per-owner totals of remaining
hp, and all participating owners. -/
def match_snapshots (s : BattleSimulation) : List (Nat × Snap) :=
  s.units.foldl (fun snaps u =>
    match u.match_id with
    | none => snaps
    | some mid =>
      let snap := (dget mid snaps).getD ⟨[], [], []⟩
      let snap1 := { snap with participants := insertSet u.owner_id snap.participants }
      let snap2 :=
        if u.status = "board" ∧ u.hp > 0 then
          { snap1 with
            alive := insertSet u.owner_id snap1.alive,
            hp_totals := dset u.owner_id
              ((dget u.owner_id snap1.hp_totals).getD 0 + max u.hp 0) snap1.hp_totals }
        else
          { snap1 with hp_totals :=
              match dget u.owner_id snap1.hp_totals with
              | some _ => snap1.hp_totals
              | none => dset u.owner_id 0 snap1.hp_totals }
      dset mid snap2 snaps) []

/-- `is_combat_resolved()`. -/
def is_combat_resolved (s : BattleSimulation) : Bool :=
  let snapshots := match_snapshots s
  if snapshots.isEmpty then false
  else snapshots.all (fun ms => ms.2.alive.length ≤ 1)

/-- The per-unit update of `tick_combat`'s first loop (targeting, attack,
movement, cooldown), for the unit with the given id.  `sqrtQ` embeds
`math.hypot` as described in the file header. -/
def unitStep (sqrtQ : ℚ → ℚ) (s : BattleSimulation) (uid : UnitId) : BattleSimulation :=
  match uget uid s.units with
  | none => s
  | some unit =>
    if unit.status ≠ "board" ∨ unit.hp ≤ 0 then s
    else
      match find_target s unit with
      | none => s
      | some target =>
        let dist := sqrtQ ((target.x - unit.x) ^ 2 + (target.y - unit.y) ^ 2)
        let fired : UnitState × List BulletState :=
          if dist ≤ unit.attack_range then
            if unit.attack_cooldown ≤ 0 then
              let delay : Int :=
                if s.accelerated then max 1 (ATTACK_DELAY_TICKS / ACCEL_ATTACK_FACTOR)
                else ATTACK_DELAY_TICKS
              ({ unit with attack_cooldown := delay, last_attack_tick := s.tick },
               s.bullets ++ [{ x := unit.x, y := unit.y, target_id := target.id,
                               speed := 10 * (60 / TICKS_PER_SECOND),
                               damage := unit.damage, active := true,
                               spawn_tick := s.tick, match_id := unit.match_id,
                               visible := decide (unit.attack_range > MELEE_RANGE_THRESHOLD) }])
            else (unit, s.bullets)
          else
            if dist ≠ 0 then
              ({ unit with
                   x := unit.x + (target.x - unit.x) / dist * unit.move_speed,
                   y := unit.y + (target.y - unit.y) / dist * unit.move_speed },
               s.bullets)
            else (unit, s.bullets)
        let unit1 := fired.1
        let unit2 :=
          if unit1.attack_cooldown > 0 then
            { unit1 with attack_cooldown := unit1.attack_cooldown -
                (if s.accelerated then ACCEL_ATTACK_FACTOR else 1) }
          else unit1
        { s with units := uset unit2 s.units, bullets := fired.2 }

/-- The per-bullet update of `tick_combat`'s second loop: accumulates the
processed bullets (in order) and the evolving units dict. -/
def bulletStep (sqrtQ : ℚ → ℚ) (tick : Int)
    (acc : List BulletState × List UnitState) (b : BulletState) :
    List BulletState × List UnitState :=
  let deactivate := fun (_ : Unit) => (acc.1 ++ [{ b with active := false }], acc.2)
  match uget b.target_id acc.2 with
  | none => deactivate ()
  | some target =>
    if target.hp ≤ 0 then deactivate ()
    else if target.match_id ≠ b.match_id then deactivate ()
    else if tick - b.spawn_tick > BULLET_TTL_TICKS then deactivate ()
    else
      let dx := target.x - b.x
      let dy := target.y - b.y
      let dist := sqrtQ (dx ^ 2 + dy ^ 2)
      if dist ≤ max BULLET_HIT_RADIUS b.speed then
        let target1 := { target with hp := target.hp - b.damage }
        let target2 := if target1.hp ≤ 0 then { target1 with status := "dead" } else target1
        (acc.1 ++ [{ b with active := false }], uset target2 acc.2)
      else
        let step := min b.speed dist
        (acc.1 ++ [{ b with x := b.x + dx / dist * step, y := b.y + dy / dist * step }],
         acc.2)

/-- The early-resolution scan at the end of `tick_combat`: per match id
(including `None`), the owners with a living board unit. -/
def matchAlive (units : List UnitState) : List (Option Nat × List Int) :=
  units.foldl (fun ma u =>
    if u.status = "board" ∧ u.hp > 0 then
      dset u.match_id (insertSet u.owner_id ((dget u.match_id ma).getD [])) ma
    else ma) []

/-- `tick_combat()`. -/
def tick_combat (sqrtQ : ℚ → ℚ) (s0 : BattleSimulation) : BattleSimulation :=
  if s0.phase ≠ "combat" then s0
  else
    let s1 := { s0 with tick := s0.tick + 1 }
    let s2 := (s1.units.map (fun u => u.id)).foldl (unitStep sqrtQ) s1
    let processed := s2.bullets.foldl (bulletStep sqrtQ s2.tick) ([], s2.units)
    let s3 := { s2 with bullets := processed.1.filter (fun b => b.active),
                        units := processed.2 }
    let ma := matchAlive s3.units
    if ma ≠ [] ∧ ma.all (fun mo => mo.2.length ≤ 1) then end_combat s3 else s3

/-- Newton iteration for the integer square root, with explicit fuel so that
the kernel can evaluate it. -/
def nsqrtAux : Nat → Nat → Nat → Nat
  | 0, _, x => x
  | fuel + 1, n, x =>
    let x' := (x + n / x) / 2
    if x' < x then nsqrtAux fuel n x' else x

/-- Integer square root (rounds down). -/
def nsqrt (n : Nat) : Nat := if n ≤ 1 then n else nsqrtAux n n (n / 2 + 1)

/-- Exact rational square root on perfect squares: `ratSqrt (q^2) = q` for
`q ≥ 0` (on non-perfect-square radicands it is some rational approximation;
the concrete traces in this file only ever take square roots of perfect
squares, where it coincides with the ideal `math.hypot`). -/
def ratSqrt (q : ℚ) : ℚ := (nsqrt q.num.toNat : ℚ) / (nsqrt q.den : ℚ)

/-- `afterTicks n s`: `n` successive `tick_combat()` calls with the exact
square root. -/
def afterTicks : Nat → BattleSimulation → BattleSimulation
  | 0, s => s
  | n + 1, s => afterTicks n (tick_combat ratSqrt s)

-- ---------------------------------------------------------------------------
-- server.py: sessions and the handlers / resolution the claims refer to
-- ---------------------------------------------------------------------------

/-- `PlayerSession` (the writer is transport-only and not modelled). -/
structure PlayerSession where
  player_id : Int
  ready : Bool
  name : String
  health : Int
  alive : Bool
  gold : Int
  in_game : Bool
  deriving DecidableEq, Repr

/-- `PlayerSession.__init__(player_id, writer)`. -/
def mkSession (player_id : Int) : PlayerSession :=
  { player_id := player_id, ready := false, name := "Player",
    health := PLAYER_START_HEALTH, alive := true, gold := 10, in_game := false }

/-- The server-side state the claims touch: the simulation plus the session
dict `Dict[int, PlayerSession]`. -/
structure ServerState where
  sim : BattleSimulation
  sessions : List (Int × PlayerSession)
  deriving DecidableEq, Repr

/-- `validate_owner(unit_id, player_id)` (a `None`/empty unit id is falsy). -/
def validate_owner (sim : BattleSimulation) (unit_id : UnitId) (player_id : Int) : Bool :=
  if unit_id = "" then false
  else match uget unit_id sim.units with
    | some unit => unit.owner_id == player_id
    | none => false

/-- The `"spawn"` branch of `handle_message`: unknown types and insufficient
gold are rejected with an error message and no state change; otherwise the
cost is deducted and the engine spawns a bench unit.  The fresh uuid is
supplied by the caller. -/
def handleSpawn (sess : PlayerSession) (sim : BattleSimulation) (newId : UnitId)
    (unit_type : String) : Except String (PlayerSession × BattleSimulation) :=
  match UNIT_STATS unit_type with
  | none => .error "Unknown unit type"
  | some stats =>
    if sess.gold < (stats.cost : Int) then .error "Not enough gold"
    else
      match spawn_unit sim newId sess.player_id unit_type with
      | some (_, sim') => .ok ({ sess with gold := sess.gold - (stats.cost : Int) }, sim')
      | none => .error "Unknown unit type"

/-- The `"sell_unit"` branch of `handle_message`.  `int(cost * 0.5)` is exact
float arithmetic truncated toward zero, which for a natural `cost` is
`cost / 2` in natural division. -/
def handleSell (sess : PlayerSession) (sim : BattleSimulation) (unit_id : UnitId) :
    Except String (PlayerSession × BattleSimulation) :=
  if sim.phase ≠ "placement" then .error "Cannot sell units during combat"
  else if validate_owner sim unit_id sess.player_id = false then
    .error "You do not own that unit"
  else
    match uget unit_id sim.units with
    | none => .error "Unit not found"
    | some unit =>
      let cost : Nat := ((UNIT_STATS unit.unit_type).map (fun st => st.cost)).getD 1
      let refund : Int := max 1 ((cost : Int) / 2)
      .ok ({ sess with gold := sess.gold + refund }, remove_unit sim unit_id)

/-- The loop body of `remove_units_for_player` for one unit id: drop the unit
(and its occupancy entry) when it belongs to the owner. -/
def removeOwnerStep (player_id : Int) (sim : BattleSimulation) (uid : UnitId) :
    BattleSimulation :=
  match uget uid sim.units with
  | none => sim
  | some unit =>
    if unit.owner_id = player_id then
      let occ1 := match unit.tile_id with
        | some tid => dpop (tid, unit.owner_id) sim.tile_occupants
        | none => sim.tile_occupants
      { sim with units := upop uid sim.units, tile_occupants := occ1 }
    else sim

/-- The engine part of `remove_units_for_player` (a mid-combat disconnect
mutates the simulation directly through this path). -/
def simRemoveOwner (s : BattleSimulation) (player_id : Int) : BattleSimulation :=
  (s.units.map (fun u => u.id)).foldl (removeOwnerStep player_id) s

/-- `remove_units_for_player(player_id)`: drops every unit of the owner (and
its occupancy entry) from the engine, then clears the session's in-game flag. -/
def remove_units_for_player (st : ServerState) (player_id : Int) : ServerState :=
  let sim' := simRemoveOwner st.sim player_id
  let sessions' := match dget player_id st.sessions with
    | some sess => dset player_id { sess with in_game := false } st.sessions
    | none => st.sessions
  { sim := sim', sessions := sessions' }

/-- `pair_map` of `resolve_combat`: match id is the index into `self.pairs`. -/
def pairFor (sim : BattleSimulation) (mid : Nat) : Option (Int × Int) :=
  sim.pairs.get? mid

/-- First key of maximal value in an association list
(Python `max(items, key=lambda kv: kv[1])[0]`, which keeps the first maximal
item in iteration order); `none` on the empty list (where the source's `max`
would raise, unreachable in `resolve_combat` since the timeout branch runs
only with at least two alive owners). -/
def argmaxFirst : List (Int × ℚ) → Option Int
  | [] => none
  | (k, v) :: rest =>
    match argmaxFirst rest with
    | none => some k
    | some k' =>
      let v' := (dget k' rest).getD v
      if v < v' then some k' else some k

/-- The per-match body of `resolve_combat`'s results loop: participants and
hp totals are completed from the pair map, then exactly-one-alive,
mutual-destruction and forced-timeout cases produce `(winner?, losers)`;
no result when the loser list would be empty. -/
def matchResult (sim : BattleSimulation) (force_timeout : Bool) (mid : Nat)
    (snap : Snap) : Option (Option Int × List Int) :=
  let pp : List Int × List (Int × ℚ) :=
    match pairFor sim mid with
    | some (a, b) =>
      (insertSet b (insertSet a snap.participants),
       let h1 := match dget a snap.hp_totals with
         | some _ => snap.hp_totals
         | none => dset a 0 snap.hp_totals
       match dget b h1 with
       | some _ => h1
       | none => dset b 0 h1)
    | none => (snap.participants, snap.hp_totals)
  let participants := pp.1
  let hp_totals := pp.2
  match snap.alive with
  | [w] =>
    let losers := participants.filter (fun pid => pid ≠ w)
    if losers = [] then none else some (some w, losers)
  | [] =>
    let losers := participants
    if losers = [] then none else some (none, losers)
  | _ =>
    if force_timeout then
      match argmaxFirst hp_totals with
      | none => none
      | some w =>
        let losers := participants.filter (fun pid => pid ≠ w)
        if losers = [] then none else some (some w, losers)
    else none

/-- The `(winner, losers)` list computed by `resolve_combat` before any health
change is applied. -/
def computeResults (sim : BattleSimulation) (force_timeout : Bool) :
    List (Option Int × List Int) :=
  (match_snapshots sim).filterMap (fun ms => matchResult sim force_timeout ms.1 ms.2)

/-- The inner body of `resolve_combat`'s penalty loop for one loser id:
decrement health if the session exists and is alive; on reaching zero or
below, mark the session eliminated and remove all of the owner's units. -/
def applyLoss (st : ServerState) (lid : Int) : ServerState :=
  match dget lid st.sessions with
  | none => st
  | some sess =>
    if sess.alive then
      let h := sess.health - LOSS_HEALTH_PENALTY
      if h ≤ 0 then
        remove_units_for_player
          { st with sessions := dset lid { sess with health := h, alive := false } st.sessions }
          lid
      else { st with sessions := dset lid { sess with health := h } st.sessions }
    else st

/-- `resolve_combat(force_timeout)`: compute results, apply the penalties,
tear combat down, reset ready flags (the round counter and broadcasts are
presentation-side and not modelled). -/
def resolve_combat (st : ServerState) (force_timeout : Bool) : ServerState :=
  let results := computeResults st.sim force_timeout
  let st1 := results.foldl (fun acc r => r.2.foldl applyLoss acc) st
  let st2 := { st1 with sim := end_combat st1.sim }
  { st2 with sessions := st2.sessions.map (fun ps => (ps.1, { ps.2 with ready := false })) }

-- ---------------------------------------------------------------------------
-- Reachability: the public mutations of the engine state
-- ---------------------------------------------------------------------------

/-- One public mutation of the engine state: spawning (with a fresh uuid and a
catalog type, as the server guarantees), placement, benching, selling, pair
preparation, combat start, one combat tick (for an arbitrary square-root
function), combat teardown, the orchestrator's acceleration toggle, and the
unit cleanup of a disconnect. -/
inductive Step : BattleSimulation → BattleSimulation → Prop
  | spawn (s : BattleSimulation) (id : UnitId) (owner : Int) (ty : String)
      (u : UnitState) (hu : mkUnit id owner ty = some u)
      (hfresh : uget id s.units = none) :
      Step s { s with units := uset u s.units }
  | place (s : BattleSimulation) (uid : UnitId) (row col : Int)
      (ae : Bool) (side : Option String) :
      Step s (place_unit_on_tile s uid row col ae side).2
  | bench (s : BattleSimulation) (uid : UnitId) :
      Step s (move_unit_to_bench s uid).2
  | sell (s : BattleSimulation) (uid : UnitId) :
      Step s (remove_unit s uid)
  | preparePairs (s : BattleSimulation) (ps : List (Int × Int)) :
      Step s (prepare_pairs s ps)
  | startCombat (s : BattleSimulation) :
      Step s (start_combat s)
  | tick (s : BattleSimulation) (sqrtQ : ℚ → ℚ) :
      Step s (tick_combat sqrtQ s)
  | endCombat (s : BattleSimulation) :
      Step s (end_combat s)
  | accel (s : BattleSimulation) (b : Bool) :
      Step s { s with accelerated := b }
  | disconnect (s : BattleSimulation) (pid : Int) :
      Step s (simRemoveOwner s pid)

/-- Engine states reachable from a fresh `BattleSimulation()` through the
public operations. -/
inductive Reachable : BattleSimulation → Prop
  | init : Reachable initSim
  | step {s s' : BattleSimulation} : Reachable s → Step s s' → Reachable s'

/-- The spec's tile-occupancy invariant: every board unit has its own entry in
the occupancy map under its (tile id, owner) key, and no two distinct board
units share that key. -/
def occupancyInvariant (s : BattleSimulation) : Prop :=
  ∀ u ∈ s.units, u.status = "board" →
    (u.tile_id.map (fun tid => dget (tid, u.owner_id) s.tile_occupants) =
        some (some u.id)) ∧
    (∀ v ∈ s.units, v.status = "board" → v.id ≠ u.id →
      ¬(v.tile_id = u.tile_id ∧ v.owner_id = u.owner_id))

instance (s : BattleSimulation) : Decidable (occupancyInvariant s) := by
  unfold occupancyInvariant; infer_instance

/-- The spec's claimed tile/status relation: `tile_id` is set iff the unit is
on the board. -/
def tileIffBoard (s : BattleSimulation) : Prop :=
  ∀ u ∈ s.units, u.tile_id ≠ none ↔ u.status = "board"

instance (s : BattleSimulation) : Decidable (tileIffBoard s) := by
  unfold tileIffBoard; infer_instance

-- ---------------------------------------------------------------------------
-- Concrete reachable traces and witness fixtures
-- ---------------------------------------------------------------------------

def rangerUnit (id : UnitId) (owner_id : Int) : UnitState :=
  { id := id, owner_id := owner_id, unit_type := "Ranger",
    max_hp := 80, hp := 80, damage := 18, attack_range := 260,
    move_speed := 2.2 * (60 / TICKS_PER_SECOND),
    status := "bench", tile_id := none, home_tile_id := none,
    x := 0, y := 0, attack_cooldown := 0, last_attack_tick := -1000,
    match_id := none }
def c1s1 : BattleSimulation := { initSim with units := uset (rangerUnit "A" 0) initSim.units }
def c1s2 : BattleSimulation := (place_unit_on_tile c1s1 "A" 4 3 false (some "friendly")).2
def c1s3 : BattleSimulation := (move_unit_to_bench c1s2 "A").2
def c1s4 : BattleSimulation := { c1s3 with units := uset (rangerUnit "B" 0) c1s3.units }
def c1s5 : BattleSimulation := (place_unit_on_tile c1s4 "B" 4 3 false (some "friendly")).2
def c1Final : BattleSimulation := end_combat c1s5
def c3s1 : BattleSimulation := { initSim with units := uset (rangerUnit "A" 0) initSim.units }
def c3s2 : BattleSimulation := (place_unit_on_tile c3s1 "A" 4 3 false (some "friendly")).2
def c3s3 : BattleSimulation := { c3s2 with units := uset (rangerUnit "B" 1) c3s2.units }
def c3s4 : BattleSimulation := (place_unit_on_tile c3s3 "B" 7 3 false (some "friendly")).2
def c3s5 : BattleSimulation := prepare_pairs c3s4 [(0, 1)]
def c3Combat : BattleSimulation := start_combat c3s5
def c3Final : BattleSimulation := afterTicks 88 c3Combat
def c5Accel : BattleSimulation := { afterTicks 1 c3Combat with accelerated := true }
def c5Mid : BattleSimulation := afterTicks 9 c5Accel

def unitOfStats (id : UnitId) (owner_id : Int) (unit_type : String)
    (stats : UnitStats) : UnitState :=
  { id := id, owner_id := owner_id, unit_type := unit_type,
    max_hp := stats.hp, hp := stats.hp, damage := stats.dmg,
    attack_range := stats.range,
    move_speed := stats.speed * (60 / TICKS_PER_SECOND),
    status := "bench", tile_id := none, home_tile_id := none,
    x := 0, y := 0, attack_cooldown := 0, last_attack_tick := -1000,
    match_id := none }
/-- Per-unit facts preserved by every public operation: a board unit has a
tile, a bench unit has none, and the attack cooldown never drops below
`1 - ACCEL_ATTACK_FACTOR`. -/
def unitInv (u : UnitState) : Prop :=
  (u.status = "board" → u.tile_id ≠ none) ∧
  (u.status = "bench" → u.tile_id = none) ∧
  1 - ACCEL_ATTACK_FACTOR ≤ u.attack_cooldown
/-- The strong per-unit shape `restore_home_positions` leaves behind. -/
def unitStrict (u : UnitState) : Prop :=
  (u.status = "board" ∧ u.tile_id ≠ none) ∨ (u.status = "bench" ∧ u.tile_id = none)
/-- The per-unit invariant together with uniqueness of dict keys (unit ids),
which CPython's `Dict[str, UnitState]` guarantees structurally. -/
def unitsInv (l : List UnitState) : Prop :=
  (l.map (fun u => u.id)).Nodup ∧ ∀ u ∈ l, unitInv u
def SimInv (s : BattleSimulation) : Prop := unitsInv s.units
def c7Seeker : UnitState := { rangerUnit "S" 0 with status := "board" }
def c7Target : UnitState := { rangerUnit "T" 1 with status := "board" }
def c7Sim : BattleSimulation := { initSim with units := [c7Target] }
def c2wUnitA : UnitState :=
  { rangerUnit "A" 0 with
    status := "board", tile_id := some (4, 3), match_id := some 0 }
def c2wUnitB : UnitState :=
  { rangerUnit "B" 1 with
    status := "dead", tile_id := some (0, 3), hp := -10, match_id := some 0 }
def c2wState : ServerState :=
  { sim := { initSim with
               units := [c2wUnitA, c2wUnitB], phase := "combat",
               pairs := [(0, 1)] },
    sessions := [(0, mkSession 0), (1, mkSession 1)] }
def c2wSnap : Snap := { alive := [0], hp_totals := [(0, 80), (1, 0)],
                        participants := [0, 1] }

-- ---------------------------------------------------------------------------
-- Theorems
-- ---------------------------------------------------------------------------

set_option maxRecDepth 2000000

theorem reachable_afterTicks {s : BattleSimulation} (h : Reachable s) :
    ∀ n, Reachable (afterTicks n s) := by
  intro n
  induction n generalizing s with
  | zero => exact h
  | succ n ih => exact ih (h.step (Step.tick s ratSqrt))

/-- A freshly spawned Ranger (`UnitState.__init__` with the Ranger stats). -/
theorem mkUnit_ranger (id : UnitId) (owner_id : Int) :
    mkUnit id owner_id "Ranger" = some (rangerUnit id owner_id) := rfl
/-- C1 trace: owner 0 places unit A on the friendly tile (4,3), benches it
(its home tile is kept), places unit B on the same tile, and a round teardown
(`end_combat`) then restores both to the shared home tile. -/
theorem reachable_c1Final : Reachable c1Final :=
  ((((Reachable.init.step
      (Step.spawn initSim "A" 0 "Ranger" (rangerUnit "A" 0) (mkUnit_ranger "A" 0) rfl)).step
      (Step.place c1s1 "A" 4 3 false (some "friendly"))).step
      (Step.bench c1s2 "A")).step
      (Step.spawn c1s3 "B" 0 "Ranger" (rangerUnit "B" 0) (mkUnit_ranger "B" 0)
        (by with_unfolding_all decide))).step
      (Step.place c1s4 "B" 4 3 false (some "friendly"))
    |>.step (Step.endCombat c1s5)
/-- C3/C5 trace: owner 0 places a Ranger at (4,3), owner 1 places one at
(7,3); pairing mirrors owner 1's unit to (0,3) and combat starts.  The two
units share a column, so every displacement in the run is vertical and
`ratSqrt` computes the exact Euclidean distances. -/
theorem reachable_c3Combat : Reachable c3Combat :=
  ((((Reachable.init.step
      (Step.spawn initSim "A" 0 "Ranger" (rangerUnit "A" 0) (mkUnit_ranger "A" 0) rfl)).step
      (Step.place c3s1 "A" 4 3 false (some "friendly"))).step
      (Step.spawn c3s2 "B" 1 "Ranger" (rangerUnit "B" 1) (mkUnit_ranger "B" 1)
        (by with_unfolding_all decide))).step
      (Step.place c3s3 "B" 7 3 false (some "friendly"))).step
      (Step.preparePairs c3s4 [(0, 1)])
    |>.step (Step.startCombat c3s5)
/-- After 88 ticks the two Rangers have traded five volleys each and both are
dead; the engine does not end the combat (no match has a single alive owner). -/
theorem reachable_c3Final : Reachable c3Final :=
  reachable_afterTicks reachable_c3Combat 88
/-- C5 trace: one combat tick (both Rangers fire, cooldown 19), then the
orchestrator switches the acceleration flag on, then nine more ticks bring
the cooldown to 1. -/
theorem reachable_c5Mid : Reachable c5Mid :=
  reachable_afterTicks
    ((reachable_afterTicks reachable_c3Combat 1).step
      (Step.accel (afterTicks 1 c3Combat) true)) 9

/-- C1: the tile-occupancy invariant does not hold in every reachable engine
state.  In the reachable state `c1Final`, units "A" and "B" (same owner, both
with home tile (4,3) because benching keeps the home tile) were both restored
onto tile (4,3) by `restore_home_positions`, which overwrites the occupancy
entry instead of resolving the collision: two distinct board units share the
key ((4,3), 0), and the single entry names only "B". -/
theorem c1_occupancy_violation :
    Reachable c1Final ∧ ¬ occupancyInvariant c1Final ∧
      (uget "A" c1Final.units).map (fun u => (u.status, u.tile_id, u.owner_id)) =
        some ("board", some (4, 3), 0) ∧
      (uget "B" c1Final.units).map (fun u => (u.status, u.tile_id, u.owner_id)) =
        some ("board", some (4, 3), 0) ∧
      c1Final.tile_occupants = [(((4, 3), 0), "B")] :=
  ⟨reachable_c1Final, by with_unfolding_all decide, by with_unfolding_all decide,
   by with_unfolding_all decide, by with_unfolding_all decide⟩

-- ---------------------------------------------------------------------------
-- C3 counterexample: a dead unit keeps its tile
-- ---------------------------------------------------------------------------

set_option maxRecDepth 1000000 in
/-- C3 is refuted as stated: in the reachable state `c3Final` (a mutual-kill
combat, 88 ticks in) both units have `status = "dead"` and still carry their
`tile_id`, so "tile_id is non-null iff status == board" fails. -/
theorem c3_dead_unit_keeps_tile :
    Reachable c3Final ∧ ¬ tileIffBoard c3Final ∧
      (uget "A" c3Final.units).map (fun u => (u.status, u.tile_id)) =
        some ("dead", some (4, 3)) :=
  ⟨reachable_c3Final, by with_unfolding_all decide, by with_unfolding_all decide⟩

-- ---------------------------------------------------------------------------
-- C5 counterexample: the cooldown decrement has no floor at zero
-- ---------------------------------------------------------------------------

set_option maxRecDepth 1000000 in
/-- C5 is refuted as stated: ticking the reachable accelerated state `c5Mid`
(where both cooldowns are 1) decrements each cooldown by
`ACCEL_ATTACK_FACTOR = 2`, leaving it at -1, so cooldowns do not stay ≥ 0
after every `tick_combat` invocation. -/
theorem c5_negative_cooldown :
    Reachable c5Mid ∧
      (uget "A" (tick_combat ratSqrt c5Mid).units).map
        (fun u => u.attack_cooldown) = some (-1) :=
  ⟨reachable_c5Mid, by with_unfolding_all decide⟩

-- ---------------------------------------------------------------------------
-- C6
-- ---------------------------------------------------------------------------
theorem side_mkBenchTile (b c : Int) : (mkBenchTile b c).side = "bench" := rfl
theorem mem_build_board_cases (t : HexTile) (ht : t ∈ build_board) :
    (∃ rN cN : Nat, rN < 8 ∧ cN < 7 ∧ t = mkBoardTile rN cN) ∨
    (∃ bN cN : Nat, bN < 1 ∧ cN < 7 ∧ t = mkBenchTile bN cN) := by
  simp only [build_board, List.mem_append, List.mem_flatten, List.mem_map,
    List.mem_range] at ht
  rcases ht with ⟨l, ⟨rN, hr, rfl⟩, hmem⟩ | ⟨l, ⟨bN, hb, rfl⟩, hmem⟩
  · rcases List.mem_map.mp hmem with ⟨cN, hc, rfl⟩
    exact Or.inl ⟨rN, cN, hr, List.mem_range.mp hc, rfl⟩
  · rcases List.mem_map.mp hmem with ⟨cN, hc, rfl⟩
    exact Or.inr ⟨bN, cN, hb, List.mem_range.mp hc, rfl⟩
theorem side_friendly_row (t : HexTile) (hb : t.is_bench = false)
    (hs : t.side = "friendly") :
    BOARD_ROWS_PER_SIDE ≤ t.row ∧ t.row < BOARD_ROWS_PER_SIDE * 2 := by
  unfold HexTile.side at hs
  rw [hb] at hs
  simp only [Bool.false_eq_true, if_false] at hs
  split at hs
  · exact absurd hs (by decide)
  · split at hs
    · refine ⟨?_, by assumption⟩
      omega
    · exact absurd hs (by decide)
/-- C6: mirroring a friendly battlefield tile to the enemy side and mirroring
the result back is the identity. -/
theorem c6_mirror_round_trip :
    ∀ t ∈ build_board, t.is_bench = false → t.side = "friendly" →
      (mirror_tile t "enemy").bind (fun t2 => mirror_tile t2 "friendly") = some t := by
  intro t ht hb hs
  rcases mem_build_board_cases t ht with ⟨rN, cN, hr, hc, rfl⟩ | ⟨bN, cN, hb1, hc, rfl⟩
  · have hrow := side_friendly_row _ hb hs
    have hr4 : 4 ≤ rN := by
      have h1 := hrow.1
      simp only [mkBoardTile, BOARD_ROWS_PER_SIDE] at h1
      exact_mod_cast h1
    interval_cases rN <;> interval_cases cN <;> rfl
  · rw [side_mkBenchTile] at hs
    exact absurd hs (by decide)
-- ---------------------------------------------------------------------------
-- Association-list and unit-dict lemmas
-- ---------------------------------------------------------------------------
theorem mem_uset_self (u : UnitState) : ∀ l : List UnitState, u ∈ uset u l
  | [] => by simp [uset]
  | v :: rest => by
    by_cases h : v.id = u.id
    · simp [uset, h]
    · simp only [uset, if_neg h]
      exact List.mem_cons_of_mem _ (mem_uset_self u rest)
theorem mem_uset {w u : UnitState} : ∀ {l : List UnitState}, w ∈ uset u l → w = u ∨ w ∈ l
  | [], h => by simpa [uset] using h
  | v :: rest, h => by
    by_cases hv : v.id = u.id
    · simp only [uset, if_pos hv] at h
      rcases List.mem_cons.mp h with h | h
      · exact Or.inl h
      · exact Or.inr (List.mem_cons_of_mem _ h)
    · simp only [uset, if_neg hv] at h
      rcases List.mem_cons.mp h with h | h
      · exact Or.inr (h ▸ List.mem_cons_self _ _)
      · rcases mem_uset h with h | h
        · exact Or.inl h
        · exact Or.inr (List.mem_cons_of_mem _ h)
theorem uget_mem {uid : UnitId} {u : UnitState} :
    ∀ {l : List UnitState}, uget uid l = some u → u ∈ l
  | [], h => by simp [uget] at h
  | v :: rest, h => by
    by_cases hv : v.id = uid
    · simp only [uget, if_pos hv, Option.some.injEq] at h
      exact h ▸ List.mem_cons_self _ _
    · simp only [uget, if_neg hv] at h
      exact List.mem_cons_of_mem _ (uget_mem h)
theorem uget_id {uid : UnitId} {u : UnitState} :
    ∀ {l : List UnitState}, uget uid l = some u → u.id = uid
  | [], h => by simp [uget] at h
  | v :: rest, h => by
    by_cases hv : v.id = uid
    · simp only [uget, if_pos hv, Option.some.injEq] at h
      exact h ▸ hv
    · simp only [uget, if_neg hv] at h
      exact uget_id h
theorem uget_isSome_of_mem {u : UnitState} :
    ∀ {l : List UnitState}, u ∈ l → uget u.id l ≠ none
  | [], h => by simp at h
  | v :: rest, h => by
    by_cases hv : v.id = u.id
    · simp [uget, hv]
    · simp only [uget, if_neg hv]
      rcases List.mem_cons.mp h with rfl | h
      · exact absurd rfl hv
      · exact uget_isSome_of_mem h
theorem uget_uset_self {u : UnitState} {uid : UnitId} (hid : u.id = uid) :
    ∀ l : List UnitState, uget uid (uset u l) = some u
  | [] => by simp [uset, uget, hid]
  | v :: rest => by
    by_cases hv : v.id = u.id
    · simp [uset, uget, hv, hid]
    · have : v.id ≠ uid := fun hc => hv (hc.trans hid.symm)
      simp only [uset, if_neg hv, uget, if_neg this]
      exact uget_uset_self hid rest
theorem mem_upop {uid : UnitId} {w : UnitState} :
    ∀ {l : List UnitState}, w ∈ upop uid l → w ∈ l
  | [], h => by simp [upop] at h
  | v :: rest, h => by
    by_cases hv : v.id = uid
    · simp only [upop, if_pos hv] at h
      exact List.mem_cons_of_mem _ h
    · simp only [upop, if_neg hv] at h
      rcases List.mem_cons.mp h with rfl | h
      · exact List.mem_cons_self _ _
      · exact List.mem_cons_of_mem _ (mem_upop h)
-- ---------------------------------------------------------------------------
-- C10
-- ---------------------------------------------------------------------------
/-- C10: after `start_combat` every unit is fully healed with cooldown 0 and
the last-attack sentinel restored. -/
theorem c10_start_combat_resets (s : BattleSimulation) :
    ∀ u ∈ (start_combat s).units,
      u.hp = u.max_hp ∧ u.attack_cooldown = 0 ∧ u.last_attack_tick = -1000 := by
  intro u hu
  simp only [start_combat, List.mem_map] at hu
  obtain ⟨v, hv, rfl⟩ := hu
  refine ⟨?_, rfl, rfl⟩
  unfold reset_for_placement
  dsimp only
  split <;> rfl
-- ---------------------------------------------------------------------------
-- C8
-- ---------------------------------------------------------------------------
/-- The unit record `UnitState.__init__` builds from given stats. -/
theorem mkUnit_of_stats {ty : String} {st : UnitStats} (id : UnitId) (owner : Int)
    (h : UNIT_STATS ty = some st) :
    mkUnit id owner ty = some (unitOfStats id owner ty st) := by
  unfold mkUnit
  rw [h]
  rfl
/-- C8: an unknown unit type makes the spawn command fail with an explicit
error (the engine state is returned unchanged by construction of the
handler), while a catalog type always spawns a bench unit with no tile. -/
theorem c8_spawn_behavior :
    (∀ (sess : PlayerSession) (sim : BattleSimulation) (newId : UnitId) (ty : String),
      UNIT_STATS ty = none →
        handleSpawn sess sim newId ty = Except.error "Unknown unit type") ∧
    (∀ (sim : BattleSimulation) (newId : UnitId) (owner : Int) (ty : String)
        (st : UnitStats), UNIT_STATS ty = some st →
      spawn_unit sim newId owner ty =
        some (unitOfStats newId owner ty st,
              { sim with units := uset (unitOfStats newId owner ty st) sim.units }) ∧
      (unitOfStats newId owner ty st).status = "bench" ∧
      (unitOfStats newId owner ty st).tile_id = none ∧
      unitOfStats newId owner ty st ∈
        ({ sim with units := uset (unitOfStats newId owner ty st) sim.units }).units) := by
  constructor
  · intro sess sim newId ty h
    unfold handleSpawn
    rw [h]
  · intro sim newId owner ty st h
    refine ⟨?_, rfl, rfl, mem_uset_self _ _⟩
    unfold spawn_unit
    rw [mkUnit_of_stats newId owner h]
    rfl
-- ---------------------------------------------------------------------------
-- C9
-- ---------------------------------------------------------------------------
/-- C9: selling an owned unit of catalog cost `c` during placement refunds
`max(1, c / 2)` gold, pops the unit from the unit dict and releases its
occupancy entry. -/
theorem c9_sell_refund (sess : PlayerSession) (sim : BattleSimulation)
    (uid : UnitId) (unit : UnitState) (st : UnitStats)
    (hphase : sim.phase = "placement")
    (hget : uget uid sim.units = some unit)
    (howner : unit.owner_id = sess.player_id)
    (hne : uid ≠ "")
    (hstats : UNIT_STATS unit.unit_type = some st) :
    handleSell sess sim uid =
      Except.ok ({ sess with gold := sess.gold + max 1 ((st.cost : Int) / 2) },
                 remove_unit sim uid) ∧
    (remove_unit sim uid).units = upop uid sim.units ∧
    (∀ tid, unit.tile_id = some tid →
      (remove_unit sim uid).tile_occupants = dpop (tid, unit.owner_id) sim.tile_occupants) ∧
    (unit.tile_id = none → (remove_unit sim uid).tile_occupants = sim.tile_occupants) := by
  have hvo : validate_owner sim uid sess.player_id = true := by
    unfold validate_owner
    rw [if_neg hne, hget]
    simp [howner]
  have hru : remove_unit sim uid =
      { sim with units := upop uid sim.units,
                 tile_occupants :=
                   match unit.tile_id with
                   | some tid => dpop (tid, unit.owner_id) sim.tile_occupants
                   | none => sim.tile_occupants } := by
    unfold remove_unit
    rw [hget]
  refine ⟨?_, ?_, ?_, ?_⟩
  · unfold handleSell
    rw [if_neg (by rw [hphase]; exact fun hc => hc rfl), hvo, hget]
    simp [hstats]
  · rw [hru]
  · intro tid htid
    rw [hru, htid]
  · intro htid
    rw [hru, htid]
-- ---------------------------------------------------------------------------
-- C4
-- ---------------------------------------------------------------------------
/-- C4: each rejection condition of `place_unit_on_tile` (missing unit, bench
tile, wrong side for the caller's allowed side under the server's call
convention `allow_enemy=False`, non-placement phase, or an occupied
(tile, owner) slot) yields `False` together with the state exactly as it was. -/
theorem c4_place_rejection_unchanged (s : BattleSimulation) (uid : UnitId)
    (row col : Int) (side : String)
    (hrej :
      uget uid s.units = none ∨
      (∃ t, find_tile row col = some t ∧ t.is_bench = true) ∨
      (∃ t, find_tile row col = some t ∧ t.side ≠ side) ∨
      s.phase ≠ "placement" ∨
      (∃ u t occ, uget uid s.units = some u ∧ find_tile row col = some t ∧
        dget (t.tid, u.owner_id) s.tile_occupants = some occ ∧ occ ≠ uid)) :
    place_unit_on_tile s uid row col false (some side) = (false, s) := by
  rcases hrej with h | ⟨t, ht, hb⟩ | ⟨t, ht, hside⟩ | hph | ⟨u, t, occ, hu, ht, hocc, hne⟩
  · simp only [place_unit_on_tile, h]
  · cases huget : uget uid s.units with
    | none => simp only [place_unit_on_tile, huget]
    | some u =>
      simp only [place_unit_on_tile, huget, ht]
      rw [if_pos (Or.inl hb)]
  · cases huget : uget uid s.units with
    | none => simp only [place_unit_on_tile, huget]
    | some u =>
      simp only [place_unit_on_tile, huget, ht]
      by_cases hbench : t.is_bench = true
      · rw [if_pos (Or.inl hbench)]
      · by_cases hph : s.phase = "placement"
        · have hcond : ¬(t.is_bench = true ∨ s.phase ≠ "placement") := by
            simp [hbench, hph]
          rw [if_neg hcond, if_pos (by simp [hside])]
        · rw [if_pos (Or.inr hph)]
  · cases huget : uget uid s.units with
    | none => simp only [place_unit_on_tile, huget]
    | some u =>
      cases hft : find_tile row col with
      | none => simp only [place_unit_on_tile, huget, hft]
      | some t =>
        simp only [place_unit_on_tile, huget, hft]
        rw [if_pos (Or.inr hph)]
  · simp only [place_unit_on_tile, hu, ht]
    by_cases hbench : t.is_bench = true
    · rw [if_pos (Or.inl hbench)]
    · by_cases hph : s.phase = "placement"
      · have hcond : ¬(t.is_bench = true ∨ s.phase ≠ "placement") := by
          simp [hbench, hph]
        by_cases hs : (decide (t.side ≠ side) && !(false && (t.side == "enemy"))) = true
        · rw [if_neg hcond, if_pos hs]
        · rw [if_neg hcond, if_neg hs]
          simp only [hocc]
          rw [if_pos hne]
      · rw [if_pos (Or.inr hph)]
-- ---------------------------------------------------------------------------
-- C7
-- ---------------------------------------------------------------------------
theorem findTargetAux_sound (seeker : UnitState) :
    ∀ (l : List UnitState) (best : Option UnitState) (r : UnitState),
      findTargetAux seeker l best = some r →
      (best = some r ∨ (r ∈ l ∧ ¬ targetSkip seeker r)) ∧
      (∀ u ∈ l, ¬ targetSkip seeker u → distSq seeker r ≤ distSq seeker u) ∧
      (∀ c, best = some c → distSq seeker r ≤ distSq seeker c) := by
  intro l
  induction l with
  | nil =>
    intro best r h
    simp only [findTargetAux] at h
    refine ⟨Or.inl h, by simp, ?_⟩
    intro c hc
    rw [h] at hc
    cases hc
    exact le_refl _
  | cons u l' ih =>
    intro best r h
    simp only [findTargetAux] at h
    by_cases hskip : targetSkip seeker u
    · rw [if_pos hskip] at h
      obtain ⟨hmem, hmin, hbest⟩ := ih best r h
      refine ⟨?_, ?_, hbest⟩
      · rcases hmem with h1 | ⟨h1, h2⟩
        · exact Or.inl h1
        · exact Or.inr ⟨List.mem_cons_of_mem _ h1, h2⟩
      · intro v hv hcand
        rcases List.mem_cons.mp hv with rfl | hv
        · exact absurd hskip hcand
        · exact hmin v hv hcand
    · rw [if_neg hskip] at h
      cases best with
      | none =>
        obtain ⟨hmem, hmin, hbest⟩ := ih (some u) r h
        refine ⟨?_, ?_, ?_⟩
        · rcases hmem with h1 | ⟨h1, h2⟩
          · injection h1 with h1
            exact Or.inr ⟨h1 ▸ List.mem_cons_self _ _, h1 ▸ hskip⟩
          · exact Or.inr ⟨List.mem_cons_of_mem _ h1, h2⟩
        · intro v hv hcand
          rcases List.mem_cons.mp hv with rfl | hv
          · exact hbest v rfl
          · exact hmin v hv hcand
        · intro c hc
          cases hc
      | some c =>
        dsimp only at h
        by_cases hlt : distSq seeker u < distSq seeker c
        · rw [if_pos hlt] at h
          obtain ⟨hmem, hmin, hbest⟩ := ih (some u) r h
          have hru : distSq seeker r ≤ distSq seeker u := hbest u rfl
          refine ⟨?_, ?_, ?_⟩
          · rcases hmem with h1 | ⟨h1, h2⟩
            · injection h1 with h1
              exact Or.inr ⟨h1 ▸ List.mem_cons_self _ _, h1 ▸ hskip⟩
            · exact Or.inr ⟨List.mem_cons_of_mem _ h1, h2⟩
          · intro v hv hcand
            rcases List.mem_cons.mp hv with rfl | hv
            · exact hru
            · exact hmin v hv hcand
          · intro c' hc'
            injection hc' with hc'
            exact hc' ▸ le_trans hru (le_of_lt hlt)
        · rw [if_neg hlt] at h
          obtain ⟨hmem, hmin, hbest⟩ := ih (some c) r h
          have hrc : distSq seeker r ≤ distSq seeker c := hbest c rfl
          refine ⟨?_, ?_, ?_⟩
          · rcases hmem with h1 | ⟨h1, h2⟩
            · exact Or.inl h1
            · exact Or.inr ⟨List.mem_cons_of_mem _ h1, h2⟩
          · intro v hv hcand
            rcases List.mem_cons.mp hv with rfl | hv
            · exact le_trans hrc (not_lt.mp hlt)
            · exact hmin v hv hcand
          · intro c' hc'
            injection hc' with hc'
            exact hc' ▸ hrc
theorem findTargetAux_complete (seeker : UnitState) :
    ∀ (l : List UnitState) (best : Option UnitState),
      (best ≠ none ∨ ∃ u ∈ l, ¬ targetSkip seeker u) →
      findTargetAux seeker l best ≠ none := by
  intro l
  induction l with
  | nil =>
    intro best h
    simp only [findTargetAux]
    rcases h with h | ⟨u, hu, _⟩
    · exact h
    · simp at hu
  | cons u l' ih =>
    intro best h
    simp only [findTargetAux]
    by_cases hskip : targetSkip seeker u
    · rw [if_pos hskip]
      apply ih
      rcases h with h | ⟨v, hv, hcand⟩
      · exact Or.inl h
      · rcases List.mem_cons.mp hv with rfl | hv
        · exact absurd hskip hcand
        · exact Or.inr ⟨v, hv, hcand⟩
    · rw [if_neg hskip]
      cases best with
      | none => exact ih (some u) (Or.inl (by simp))
      | some c =>
        dsimp only
        by_cases hlt : distSq seeker u < distSq seeker c
        · rw [if_pos hlt]
          exact ih (some u) (Or.inl (by simp))
        · rw [if_neg hlt]
          exact ih (some c) (Or.inl (by simp))
/-- C7: `find_target` scans exactly the units of the seeker's match that are
not the seeker's own, not dead and on the board, returns a Euclidean-nearest
one, and finds one whenever a candidate exists; as a pure function of the
state it is trivially stable across repeated calls. -/
theorem c7_find_target_nearest (s : BattleSimulation) (seeker : UnitState) :
    (∀ r, find_target s seeker = some r →
      (r ∈ s.units ∧ r.owner_id ≠ seeker.owner_id ∧ r.status = "board" ∧
        r.hp > 0 ∧ r.match_id = seeker.match_id) ∧
      (∀ u ∈ s.units,
        u.owner_id ≠ seeker.owner_id → u.status = "board" → u.hp > 0 →
        u.match_id = seeker.match_id →
        Real.sqrt ((distSq seeker r : ℚ) : ℝ) ≤ Real.sqrt ((distSq seeker u : ℚ) : ℝ))) ∧
    ((∃ u ∈ s.units, u.owner_id ≠ seeker.owner_id ∧ u.status = "board" ∧
        u.hp > 0 ∧ u.match_id = seeker.match_id) →
      ∃ r, find_target s seeker = some r) := by
  have hiff : ∀ u : UnitState, ¬ targetSkip seeker u ↔
      (u.owner_id ≠ seeker.owner_id ∧ u.status = "board" ∧ u.hp > 0 ∧
        u.match_id = seeker.match_id) := by
    intro u
    unfold targetSkip
    push_neg
    constructor
    · rintro ⟨h1, h2, h3, h4⟩
      exact ⟨h1, not_not.mp (by simpa using h2), by linarith, not_not.mp (by simpa using h4)⟩
    · rintro ⟨h1, h2, h3, h4⟩
      exact ⟨h1, by simp [h2], by linarith, by simp [h4]⟩
  constructor
  · intro r hr
    obtain ⟨hmem, hmin, _⟩ := findTargetAux_sound seeker s.units none r hr
    rcases hmem with h1 | ⟨h1, h2⟩
    · cases h1
    · obtain ⟨ho1, hs1, hhp1, hm1⟩ := (hiff r).mp h2
      refine ⟨⟨h1, ho1, hs1, hhp1, hm1⟩, ?_⟩
      intro u hu ho hs hhp hm
      have := hmin u hu ((hiff u).mpr ⟨ho, hs, hhp, hm⟩)
      exact Real.sqrt_le_sqrt (by exact_mod_cast this)
  · rintro ⟨u, hu, hcand⟩
    have := findTargetAux_complete seeker s.units none
      (Or.inr ⟨u, hu, (hiff u).mpr hcand⟩)
    cases hft : findTargetAux seeker s.units none with
    | none => exact absurd hft this
    | some r => exact ⟨r, hft⟩
-- ---------------------------------------------------------------------------
-- Invariant machinery for the amended C3 and C5
-- ---------------------------------------------------------------------------
theorem unitStrict.inv {u : UnitState} (h : unitStrict u)
    (hcd : 1 - ACCEL_ATTACK_FACTOR ≤ u.attack_cooldown) : unitInv u := by
  rcases h with ⟨h1, h2⟩ | ⟨h1, h2⟩
  · exact ⟨fun _ => h2, fun hb => absurd (h1.symm.trans hb) (by decide), hcd⟩
  · exact ⟨fun hb => absurd (h1.symm.trans hb) (by decide), fun _ => h2, hcd⟩
theorem uget_none_not_mem_ids {uid : UnitId} :
    ∀ {l : List UnitState}, uget uid l = none → uid ∉ l.map (fun u => u.id)
  | [], _ => by simp
  | v :: rest, h => by
    by_cases hv : v.id = uid
    · simp [uget, hv] at h
    · simp only [uget, if_neg hv] at h
      simp only [List.map_cons, List.mem_cons]
      rintro (rfl | hmem)
      · exact hv rfl
      · exact uget_none_not_mem_ids h hmem
theorem uset_map_id_existing {u : UnitState} :
    ∀ {l : List UnitState}, uget u.id l ≠ none →
      (uset u l).map (fun v => v.id) = l.map (fun v => v.id)
  | [], h => ((h : uget u.id [] ≠ none) rfl).elim
  | v :: rest, h => by
    by_cases hv : v.id = u.id
    · simp [uset, hv]
    · have hne : v.id ≠ u.id := hv
      simp only [uget, if_neg hv] at h
      simp only [uset, if_neg hv, List.map_cons, List.cons.injEq]
      exact ⟨trivial, uset_map_id_existing h⟩
theorem uset_map_id_fresh {u : UnitState} :
    ∀ {l : List UnitState}, uget u.id l = none →
      (uset u l).map (fun v => v.id) = l.map (fun v => v.id) ++ [u.id]
  | [], _ => by simp [uset]
  | v :: rest, h => by
    by_cases hv : v.id = u.id
    · simp [uget, hv] at h
    · simp only [uget, if_neg hv] at h
      simp only [uset, if_neg hv, List.map_cons, List.cons_append, List.cons.injEq]
      exact ⟨trivial, uset_map_id_fresh h⟩
theorem upop_sublist (uid : UnitId) :
    ∀ l : List UnitState, List.Sublist (upop uid l) l
  | [] => List.Sublist.refl _
  | v :: rest => by
    by_cases hv : v.id = uid
    · simp only [upop, if_pos hv]
      exact List.sublist_cons_self _ _
    · simp only [upop, if_neg hv]
      exact (upop_sublist uid rest).cons₂ v
theorem mem_uset_nodup {w u : UnitState} :
    ∀ {l : List UnitState}, (l.map (fun v => v.id)).Nodup → w ∈ uset u l →
      w = u ∨ (w ∈ l ∧ w.id ≠ u.id)
  | [], _, h => by simpa [uset] using h
  | v :: rest, hnd, h => by
    simp only [List.map_cons, List.nodup_cons] at hnd
    by_cases hv : v.id = u.id
    · simp only [uset, if_pos hv] at h
      rcases List.mem_cons.mp h with rfl | h
      · exact Or.inl rfl
      · refine Or.inr ⟨List.mem_cons_of_mem _ h, ?_⟩
        intro hc
        exact hnd.1 (hv ▸ hc ▸ List.mem_map_of_mem (fun x => x.id) h)
    · simp only [uset, if_neg hv] at h
      rcases List.mem_cons.mp h with rfl | h
      · exact Or.inr ⟨List.mem_cons_self _ _, hv⟩
      · rcases mem_uset_nodup hnd.2 h with h1 | ⟨h1, h2⟩
        · exact Or.inl h1
        · exact Or.inr ⟨List.mem_cons_of_mem _ h1, h2⟩
theorem unitsInv_uset_existing {l : List UnitState} {uid : UnitId}
    {unit u' : UnitState} (hinv : unitsInv l) (hget : uget uid l = some unit)
    (hid : u'.id = unit.id) (hu' : unitInv u') : unitsInv (uset u' l) := by
  have hne : uget u'.id l ≠ none := by
    rw [hid, uget_id hget]
    rw [hget]
    exact fun hc => Option.noConfusion hc
  constructor
  · rw [uset_map_id_existing hne]
    exact hinv.1
  · intro w hw
    rcases mem_uset hw with rfl | hw
    · exact hu'
    · exact hinv.2 w hw
theorem unitsInv_uset_fresh {l : List UnitState} {u' : UnitState}
    (hinv : unitsInv l) (hfresh : uget u'.id l = none) (hu' : unitInv u') :
    unitsInv (uset u' l) := by
  constructor
  · rw [uset_map_id_fresh hfresh]
    have : u'.id ∉ l.map (fun v => v.id) := uget_none_not_mem_ids hfresh
    simp [List.nodup_append, hinv.1, this]
  · intro w hw
    rcases mem_uset hw with rfl | hw
    · exact hu'
    · exact hinv.2 w hw
theorem unitsInv_upop {l : List UnitState} (uid : UnitId) (hinv : unitsInv l) :
    unitsInv (upop uid l) := by
  constructor
  · exact ((upop_sublist uid l).map (fun v => v.id)).nodup hinv.1
  · intro w hw
    exact hinv.2 w (mem_upop hw)
theorem unitsInv_map {l : List UnitState} {f : UnitState → UnitState}
    (hinv : unitsInv l) (hid : ∀ u, (f u).id = u.id)
    (hf : ∀ u ∈ l, unitInv (f u)) : unitsInv (l.map f) := by
  constructor
  · have : (l.map f).map (fun v => v.id) = l.map (fun v => v.id) := by
      rw [List.map_map]
      exact List.map_congr_left (fun u _ => hid u)
    rw [this]
    exact hinv.1
  · intro w hw
    rcases List.mem_map.mp hw with ⟨u, hu, rfl⟩
    exact hf u hu
theorem mkUnit_fields {id : UnitId} {owner : Int} {ty : String} {u : UnitState}
    (h : mkUnit id owner ty = some u) :
    u.id = id ∧ u.status = "bench" ∧ u.tile_id = none ∧ u.attack_cooldown = 0 := by
  unfold mkUnit at h
  cases hst : UNIT_STATS ty with
  | none => rw [hst] at h; cases h
  | some st =>
    rw [hst] at h
    injection h with h
    subst h
    exact ⟨rfl, rfl, rfl, rfl⟩
theorem unitInv_of_mkUnit {id : UnitId} {owner : Int} {ty : String} {u : UnitState}
    (h : mkUnit id owner ty = some u) : unitInv u := by
  obtain ⟨_, h2, h3, h4⟩ := mkUnit_fields h
  refine ⟨fun hb => absurd (h2.symm.trans hb) (by decide), fun _ => h3, ?_⟩
  rw [h4]
  decide
theorem SimInv_spawn {s : BattleSimulation} {id : UnitId} {owner : Int}
    {ty : String} {u : UnitState} (hinv : SimInv s)
    (hu : mkUnit id owner ty = some u) (hfresh : uget id s.units = none) :
    SimInv { s with units := uset u s.units } := by
  have hid : u.id = id := (mkUnit_fields hu).1
  exact unitsInv_uset_fresh hinv (hid ▸ hfresh) (unitInv_of_mkUnit hu)
theorem SimInv_place (s : BattleSimulation) (uid : UnitId) (row col : Int)
    (ae : Bool) (side : Option String) (hinv : SimInv s) :
    SimInv (place_unit_on_tile s uid row col ae side).2 := by
  unfold place_unit_on_tile
  cases hget : uget uid s.units with
  | none => exact hinv
  | some unit =>
    cases hft : find_tile row col with
    | none => exact hinv
    | some tile =>
      dsimp only
      split
      · exact hinv
      · split
        · exact hinv
        · have hwrite : ∀ occ1, SimInv { s with
              units := uset { unit with
                tile_id := some tile.tid
                home_tile_id :=
                  if tile.side = "friendly" then some tile.tid else unit.home_tile_id
                x := tile.center_x, y := tile.center_y
                status := "board" } s.units,
              tile_occupants := occ1 } := by
            intro occ1
            refine unitsInv_uset_existing hinv hget rfl ?_
            have := hinv.2 unit (uget_mem hget)
            exact ⟨fun _ => by simp, fun hb => by simp at hb, this.2.2⟩
          cases hocc : dget (tile.tid, unit.owner_id) s.tile_occupants with
          | some occupant =>
            dsimp only
            split
            · exact hinv
            · exact hwrite _
          | none => exact hwrite _
theorem SimInv_bench (s : BattleSimulation) (uid : UnitId) (hinv : SimInv s) :
    SimInv (move_unit_to_bench s uid).2 := by
  unfold move_unit_to_bench
  cases hget : uget uid s.units with
  | none => exact hinv
  | some unit =>
    dsimp only
    refine unitsInv_uset_existing hinv hget rfl ?_
    have := hinv.2 unit (uget_mem hget)
    exact ⟨fun hb => by simp at hb, fun _ => rfl, this.2.2⟩
theorem SimInv_remove (s : BattleSimulation) (uid : UnitId) (hinv : SimInv s) :
    SimInv (remove_unit s uid) := by
  unfold remove_unit
  cases hget : uget uid s.units with
  | none => exact hinv
  | some unit => exact unitsInv_upop uid hinv
theorem SimInv_moveOwnerStep (side : String) (owner : Int) (s : BattleSimulation)
    (uid : UnitId) (hinv : SimInv s) : SimInv (moveOwnerStep side owner s uid) := by
  unfold moveOwnerStep
  cases hget : uget uid s.units with
  | none => exact hinv
  | some unit =>
    dsimp only
    split
    · exact hinv
    · split
      · exact hinv
      · split
        · exact hinv
        · split
          · exact hinv
          · refine unitsInv_uset_existing hinv hget rfl ?_
            have := hinv.2 unit (uget_mem hget)
            exact ⟨fun _ => by simp, fun hb => by simp at hb, this.2.2⟩
theorem SimInv_foldl {α : Type} {f : BattleSimulation → α → BattleSimulation}
    (hf : ∀ s a, SimInv s → SimInv (f s a)) :
    ∀ (l : List α) (s : BattleSimulation), SimInv s → SimInv (l.foldl f s)
  | [], s, h => h
  | a :: rest, s, h => SimInv_foldl hf rest (f s a) (hf s a h)
theorem SimInv_move_owner_to_side (s : BattleSimulation) (owner : Int)
    (side : String) (hinv : SimInv s) : SimInv (move_owner_to_side s owner side) :=
  SimInv_foldl (fun s' a h => SimInv_moveOwnerStep side owner s' a h) _ s hinv
theorem uget_uset_write {u' : UnitState} {l : List UnitState} {uid : UnitId}
    (hid : u'.id = uid) : uget uid (uset u' l) = some u' :=
  uget_uset_self hid l
theorem SimInv_prepare_pairs (s : BattleSimulation) (ps : List (Int × Int))
    (hinv : SimInv s) : SimInv (prepare_pairs s ps) := by
  unfold prepare_pairs
  dsimp only
  apply SimInv_foldl
  · intro s' uid hinv'
    cases hget : uget uid s'.units with
    | none => exact hinv'
    | some u =>
      dsimp only
      split
      · have hbench : SimInv (move_unit_to_bench s' uid).2 := SimInv_bench s' uid hinv'
        cases hget1 : uget uid (move_unit_to_bench s' uid).2.units with
        | none => exact hbench
        | some u1 =>
          refine unitsInv_uset_existing hbench hget1 rfl ?_
          have := hbench.2 u1 (uget_mem hget1)
          exact ⟨this.1, this.2.1, this.2.2⟩
      · exact hinv'
  · apply SimInv_foldl
    · intro s' pe hinv'
      dsimp only
      refine unitsInv_map
        (SimInv_move_owner_to_side _ _ _ (SimInv_move_owner_to_side _ _ _ hinv'))
        (fun u => by split <;> rfl) ?_
      intro u hu
      have := (SimInv_move_owner_to_side _ _ _
        (SimInv_move_owner_to_side _ _ _ hinv')).2 u hu
      split
      · exact ⟨this.1, this.2.1, this.2.2⟩
      · exact this
    · exact ⟨hinv.1, hinv.2⟩
theorem reset_fields (u : UnitState) :
    (reset_for_placement u).tile_id = u.tile_id ∧
    (reset_for_placement u).status = (if u.tile_id ≠ none then "board" else "bench") ∧
    (reset_for_placement u).attack_cooldown = 0 ∧
    (reset_for_placement u).id = u.id := by
  unfold reset_for_placement
  dsimp only
  split <;> exact ⟨rfl, rfl, rfl, rfl⟩
theorem unitInv_reset (u : UnitState) : unitInv (reset_for_placement u) := by
  obtain ⟨h1, h2, h3, _⟩ := reset_fields u
  refine ⟨?_, ?_, ?_⟩
  · intro hb
    rw [h1]
    rw [h2] at hb
    by_cases ht : u.tile_id ≠ none
    · exact ht
    · rw [if_neg ht] at hb
      exact absurd hb (by decide)
  · intro hb
    rw [h1]
    rw [h2] at hb
    by_cases ht : u.tile_id ≠ none
    · rw [if_pos ht] at hb
      exact absurd hb (by decide)
    · exact not_not.mp ht
  · rw [h3]
    decide
theorem SimInv_start_combat (s : BattleSimulation) (hinv : SimInv s) :
    SimInv (start_combat s) :=
  unitsInv_map hinv (fun u => (reset_fields u).2.2.2) (fun u _ => unitInv_reset u)
-- ---------------------------------------------------------------------------
-- restore_home_positions and end_combat preserve the invariant
-- ---------------------------------------------------------------------------
theorem restoreStep_cases (s : BattleSimulation) (uid : UnitId) :
    (uget uid s.units = none ∧ restoreStep s uid = s) ∨
    (∃ unit unit' occ1, uget uid s.units = some unit ∧
      restoreStep s uid =
        { s with units := uset unit' s.units, tile_occupants := occ1 } ∧
      unit'.id = unit.id ∧ unitStrict unit' ∧
      unit'.attack_cooldown = unit.attack_cooldown ∧
      unit'.owner_id = unit.owner_id) := by
  unfold restoreStep
  cases hget : uget uid s.units with
  | none => exact Or.inl ⟨rfl, rfl⟩
  | some unit =>
    dsimp only
    right
    split
    · exact ⟨unit, _, _, rfl, rfl, rfl, Or.inl ⟨rfl, by simp⟩, rfl, rfl⟩
    · exact ⟨unit, _, _, rfl, rfl, rfl, Or.inr ⟨rfl, rfl⟩, rfl, rfl⟩
theorem restore_fold (ids : List UnitId) :
    ∀ (s : BattleSimulation),
      unitsInv s.units →
      (∀ u ∈ s.units, u.id ∈ ids ∨ unitStrict u) →
      unitsInv (List.foldl restoreStep s ids).units ∧
      ∀ u ∈ (List.foldl restoreStep s ids).units, unitStrict u := by
  induction ids with
  | nil =>
    intro s hinv hcov
    refine ⟨hinv, fun u hu => ?_⟩
    rcases hcov u hu with h | h
    · simp at h
    · exact h
  | cons uid rest ih =>
    intro s hinv hcov
    simp only [List.foldl_cons]
    rcases restoreStep_cases s uid with ⟨hget, heq⟩ |
      ⟨unit, unit', occ1, hget, heq, hid, hstrict, hcd, hown⟩
    · rw [heq]
      refine ih s hinv (fun u hu => ?_)
      rcases hcov u hu with h | h
      · rcases List.mem_cons.mp h with h1 | h1
        · exact absurd hget (h1 ▸ uget_isSome_of_mem hu)
        · exact Or.inl h1
      · exact Or.inr h
    · rw [heq]
      have hcd' : 1 - ACCEL_ATTACK_FACTOR ≤ unit'.attack_cooldown := by
        rw [hcd]
        exact (hinv.2 unit (uget_mem hget)).2.2
      have hinv' : unitsInv (uset unit' s.units) :=
        unitsInv_uset_existing hinv hget hid (hstrict.inv hcd')
      refine ih _ hinv' (fun u hu => ?_)
      rcases mem_uset_nodup hinv.1 hu with rfl | ⟨hu1, hune⟩
      · exact Or.inr hstrict
      · rcases hcov u hu1 with h | h
        · rcases List.mem_cons.mp h with h1 | h1
          · exact absurd (h1.trans (uget_id hget).symm) (hid ▸ hune)
          · exact Or.inl h1
        · exact Or.inr h
theorem restore_result (s : BattleSimulation) (hinv : SimInv s) :
    SimInv (restore_home_positions s) ∧
    ∀ u ∈ (restore_home_positions s).units, unitStrict u := by
  unfold restore_home_positions
  dsimp only
  exact restore_fold _ _ ⟨hinv.1, hinv.2⟩
    (fun u hu => Or.inl (List.mem_map_of_mem _ hu))
theorem endNormalize_id (u : UnitState) : (endNormalize u).id = u.id := by
  unfold endNormalize
  split
  · dsimp only
    split <;> rfl
  · rfl
theorem endNormalize_inv (u : UnitState) (hstr : unitStrict u)
    (hcd : 1 - ACCEL_ATTACK_FACTOR ≤ u.attack_cooldown) :
    unitInv (endNormalize u) := by
  unfold endNormalize
  split
  case _ hnb =>
    have hb : u.status = "board" ∧ u.tile_id ≠ none := by
      rcases hstr with h | h
      · exact h
      · exact absurd h.1 hnb
    dsimp only
    split
    · exact ⟨fun _ => hb.2, fun hbe => by simp at hbe,
        by norm_num [ACCEL_ATTACK_FACTOR]⟩
    · exact ⟨fun _ => hb.2, fun hbe => by simp at hbe,
        by norm_num [ACCEL_ATTACK_FACTOR]⟩
  case _ hnb =>
    have hb : u.status = "bench" := not_not.mp (by simpa using hnb)
    have ht : u.tile_id = none := by
      rcases hstr with h | h
      · exact absurd (h.1.symm.trans hb) (by decide)
      · exact h.2
    exact ⟨fun hbo => absurd (hbo.symm.trans hb).symm (by decide), fun _ => ht, hcd⟩
theorem SimInv_end_combat (s : BattleSimulation) (hinv : SimInv s) :
    SimInv (end_combat s) := by
  unfold end_combat
  dsimp only
  obtain ⟨hinv1, hstrict⟩ :=
    restore_result { s with phase := "placement", bullets := [] } ⟨hinv.1, hinv.2⟩
  exact unitsInv_map ⟨hinv1.1, hinv1.2⟩ endNormalize_id
    (fun u hu => endNormalize_inv u (hstrict u hu) ((hinv1.2 u hu).2.2))
-- ---------------------------------------------------------------------------
-- tick_combat preserves the invariant
-- ---------------------------------------------------------------------------
theorem SimInv_unitStep (sqrtQ : ℚ → ℚ) (s : BattleSimulation) (uid : UnitId)
    (hinv : SimInv s) : SimInv (unitStep sqrtQ s uid) := by
  unfold unitStep
  cases hget : uget uid s.units with
  | none => exact hinv
  | some unit =>
    dsimp only
    split
    · exact hinv
    · cases htgt : find_target s unit with
      | none => exact hinv
      | some target =>
        dsimp only
        have hu := hinv.2 unit (uget_mem hget)
        have hcd : 1 - ACCEL_ATTACK_FACTOR ≤ unit.attack_cooldown := hu.2.2
        have hbase : ∀ (u2 : UnitState) (bb : List BulletState),
            u2.id = unit.id →
            (u2.status = "board" → u2.tile_id ≠ none) →
            (u2.status = "bench" → u2.tile_id = none) →
            1 - ACCEL_ATTACK_FACTOR ≤ u2.attack_cooldown →
            SimInv { s with units := uset u2 s.units, bullets := bb } :=
          fun u2 bb hid h1 h2 h3 =>
            unitsInv_uset_existing hinv hget hid ⟨h1, h2, h3⟩
        simp only [ACCEL_ATTACK_FACTOR, ATTACK_DELAY_TICKS] at hcd ⊢
        split <;> split <;> (try dsimp only) <;> (try split) <;> (try split) <;>
          (try dsimp only) <;>
          refine hbase _ _ rfl hu.1 hu.2.1 ?_ <;>
          simp only [ACCEL_ATTACK_FACTOR] <;>
          first
            | omega
            | decide
            | exact hcd
theorem bulletStep_units (sqrtQ : ℚ → ℚ) (tick : Int)
    (acc : List BulletState × List UnitState) (b : BulletState)
    (hinv : unitsInv acc.2) : unitsInv (bulletStep sqrtQ tick acc b).2 := by
  unfold bulletStep
  cases hget : uget b.target_id acc.2 with
  | none => exact hinv
  | some target =>
    dsimp only
    split
    · exact hinv
    · split
      · exact hinv
      · split
        · exact hinv
        · split
          · -- hit: damage applied, possibly dead
            dsimp only
            have ht := hinv.2 target (uget_mem hget)
            refine unitsInv_uset_existing hinv hget ?_ ?_
            · split <;> rfl
            · split
              · exact ⟨fun hb => by simp at hb, fun hb => by simp at hb, ht.2.2⟩
              · exact ⟨ht.1, ht.2.1, ht.2.2⟩
          · exact hinv
theorem bullets_fold_units (sqrtQ : ℚ → ℚ) (tick : Int) :
    ∀ (bs : List BulletState) (acc : List BulletState × List UnitState),
      unitsInv acc.2 →
      unitsInv (bs.foldl (bulletStep sqrtQ tick) acc).2
  | [], _, h => h
  | b :: rest, acc, h =>
    bullets_fold_units sqrtQ tick rest _ (bulletStep_units sqrtQ tick acc b h)
theorem SimInv_tick_combat (sqrtQ : ℚ → ℚ) (s : BattleSimulation)
    (hinv : SimInv s) : SimInv (tick_combat sqrtQ s) := by
  unfold tick_combat
  split
  · exact hinv
  · dsimp only
    split
    · exact SimInv_end_combat _
        (bullets_fold_units sqrtQ _ _ _
          (SimInv_foldl (fun s' a h => SimInv_unitStep sqrtQ s' a h) _ _ hinv))
    · exact bullets_fold_units sqrtQ _ _ _
        (SimInv_foldl (fun s' a h => SimInv_unitStep sqrtQ s' a h) _ _ hinv)
theorem SimInv_simRemoveOwner (s : BattleSimulation) (pid : Int)
    (hinv : SimInv s) : SimInv (simRemoveOwner s pid) := by
  unfold simRemoveOwner
  refine SimInv_foldl ?_ _ _ hinv
  intro s' uid h
  unfold removeOwnerStep
  cases hget : uget uid s'.units with
  | none => exact h
  | some unit =>
    dsimp only
    split
    · exact unitsInv_upop uid h
    · exact h
theorem step_SimInv {s s' : BattleSimulation} (hinv : SimInv s)
    (hstep : Step s s') : SimInv s' := by
  cases hstep with
  | spawn id owner ty u hu hfresh => exact SimInv_spawn hinv hu hfresh
  | place uid row col ae side => exact SimInv_place s uid row col ae side hinv
  | bench uid => exact SimInv_bench s uid hinv
  | sell uid => exact SimInv_remove s uid hinv
  | preparePairs ps => exact SimInv_prepare_pairs s ps hinv
  | startCombat => exact SimInv_start_combat s hinv
  | tick sqrtQ => exact SimInv_tick_combat sqrtQ s hinv
  | endCombat => exact SimInv_end_combat s hinv
  | accel b => exact ⟨hinv.1, hinv.2⟩
  | disconnect pid => exact SimInv_simRemoveOwner s pid hinv
theorem reachable_SimInv {s : BattleSimulation} (h : Reachable s) : SimInv s := by
  induction h with
  | init => exact ⟨List.nodup_nil, fun u hu => by simp [initSim] at hu⟩
  | step hr hst ih => exact step_SimInv ih hst
-- ---------------------------------------------------------------------------
-- Amended C3 and C5
-- ---------------------------------------------------------------------------
/-- C3, amended: in every reachable engine state a board unit has a tile and a
bench unit has none; a dead unit may retain its tile (the strict iff fails,
see the counterexample). -/
theorem c3_tile_board_invariant (s : BattleSimulation) (h : Reachable s) :
    ∀ u ∈ s.units, (u.status = "board" → u.tile_id ≠ none) ∧
      (u.status = "bench" → u.tile_id = none) := by
  intro u hu
  have := (reachable_SimInv h).2 u hu
  exact ⟨this.1, this.2.1⟩
theorem c3_tile_board_invariant_witness :
    ((rangerUnit "A" 0).status = "board" → (rangerUnit "A" 0).tile_id ≠ none) ∧
    ((rangerUnit "A" 0).status = "bench" → (rangerUnit "A" 0).tile_id = none) :=
  c3_tile_board_invariant c1s1
    (Reachable.init.step
      (Step.spawn initSim "A" 0 "Ranger" (rangerUnit "A" 0) (mkUnit_ranger "A" 0) rfl))
    (rangerUnit "A" 0) (by with_unfolding_all decide)
/-- C5, amended: after every `tick_combat` invocation on a reachable state the
attack cooldown of every unit is at least `1 - ACCEL_ATTACK_FACTOR` (= -1);
a positive cooldown is decremented by 1, or by `ACCEL_ATTACK_FACTOR` during
the accelerated sub-phase, and can overshoot zero down to -1 rather than
being floored at zero (see the counterexample). -/
theorem c5_cooldown_lower_bound (sqrtQ : ℚ → ℚ) (s : BattleSimulation)
    (h : Reachable s) :
    ∀ u ∈ (tick_combat sqrtQ s).units,
      1 - ACCEL_ATTACK_FACTOR ≤ u.attack_cooldown := by
  intro u hu
  exact ((reachable_SimInv (h.step (Step.tick s sqrtQ))).2 u hu).2.2
/-- The state of unit "A" one combat tick into the C3/C5 trace: it has fired
(cooldown 19, last attack at tick 1). -/
theorem c5_cooldown_lower_bound_witness :
    1 - ACCEL_ATTACK_FACTOR ≤ (rangerUnit "A" 0).attack_cooldown :=
  c5_cooldown_lower_bound ratSqrt c1s1
    (Reachable.init.step
      (Step.spawn initSim "A" 0 "Ranger" (rangerUnit "A" 0) (mkUnit_ranger "A" 0) rfl))
    (rangerUnit "A" 0) (by with_unfolding_all decide)
-- ---------------------------------------------------------------------------
-- Witnesses for the confirmed claims with hypotheses
-- ---------------------------------------------------------------------------
theorem c4_place_rejection_unchanged_witness :
    place_unit_on_tile initSim "A" 8 0 false (some "friendly") = (false, initSim) :=
  c4_place_rejection_unchanged initSim "A" 8 0 "friendly" (Or.inl rfl)
theorem mkBoardTile_mem_build_board : mkBoardTile 4 3 ∈ build_board := by
  simp only [build_board, List.mem_append, List.mem_flatten, List.mem_map,
    List.mem_range]
  exact Or.inl ⟨_, ⟨4, by decide, rfl⟩,
    List.mem_map.mpr ⟨3, List.mem_range.mpr (by decide), rfl⟩⟩
theorem c6_mirror_round_trip_witness :
    (mirror_tile (mkBoardTile 4 3) "enemy").bind
      (fun t2 => mirror_tile t2 "friendly") = some (mkBoardTile 4 3) :=
  c6_mirror_round_trip (mkBoardTile 4 3) mkBoardTile_mem_build_board rfl rfl
theorem c7_find_target_nearest_witness :
    ∃ r, find_target c7Sim c7Seeker = some r :=
  (c7_find_target_nearest c7Sim c7Seeker).2
    ⟨c7Target, by with_unfolding_all decide, by with_unfolding_all decide⟩
theorem c8_spawn_behavior_witness :
    handleSpawn (mkSession 0) initSim "W" "Dragon" =
      Except.error "Unknown unit type" ∧
    spawn_unit initSim "W" 0 "Ranger" =
      some (unitOfStats "W" 0 "Ranger" ⟨80, 18, 260, 2.2, 2⟩,
        { initSim with
            units := uset (unitOfStats "W" 0 "Ranger" ⟨80, 18, 260, 2.2, 2⟩) initSim.units }) :=
  ⟨c8_spawn_behavior.1 (mkSession 0) initSim "W" "Dragon" rfl,
   (c8_spawn_behavior.2 initSim "W" 0 "Ranger" ⟨80, 18, 260, 2.2, 2⟩ rfl).1⟩
theorem c9_sell_refund_witness :
    handleSell (mkSession 0) c1s1 "A" =
      Except.ok ({ mkSession 0 with gold := 10 + max 1 (((2 : Nat) : Int) / 2) },
        remove_unit c1s1 "A") :=
  (c9_sell_refund (mkSession 0) c1s1 "A" (rangerUnit "A" 0) ⟨80, 18, 260, 2.2, 2⟩
    rfl (by with_unfolding_all decide) (by with_unfolding_all decide)
    (by decide) rfl).1
theorem c10_start_combat_resets_witness :
    (reset_for_placement (rangerUnit "A" 0)).hp =
      (reset_for_placement (rangerUnit "A" 0)).max_hp ∧
    (reset_for_placement (rangerUnit "A" 0)).attack_cooldown = 0 ∧
    (reset_for_placement (rangerUnit "A" 0)).last_attack_tick = -1000 :=
  c10_start_combat_resets c1s1 (reset_for_placement (rangerUnit "A" 0))
    (by with_unfolding_all decide)
-- ---------------------------------------------------------------------------
-- C2: association-list and set lemmas
-- ---------------------------------------------------------------------------

theorem dget_dset_self {K V : Type} [DecidableEq K] (k : K) (v : V) :
    ∀ l : List (K × V), dget k (dset k v l) = some v
  | [] => by simp [dget, dset]
  | (k', v') :: rest => by
    by_cases hk : k' = k
    · simp [dset, dget, hk]
    · simp only [dset, if_neg hk, dget, if_neg hk]
      exact dget_dset_self k v rest

theorem dget_dset_ne {K V : Type} [DecidableEq K] {k k2 : K} (v : V)
    (hne : k2 ≠ k) : ∀ l : List (K × V), dget k (dset k2 v l) = dget k l
  | [] => by simp [dget, dset, hne]
  | (k', v') :: rest => by
    by_cases hk : k' = k2
    · simp only [dset, if_pos hk, dget]
      rw [if_neg (hk ▸ hne), if_neg (hk ▸ hne)]
    · simp only [dset, if_neg hk, dget]
      by_cases hk2 : k' = k
      · rw [if_pos hk2, if_pos hk2]
      · rw [if_neg hk2, if_neg hk2]
        exact dget_dset_ne v hne rest

theorem mem_insertSet_self (x : Int) (l : List Int) : x ∈ insertSet x l := by
  unfold insertSet
  split
  · assumption
  · simp

theorem mem_insertSet_of_mem {x : Int} (y : Int) {l : List Int} (h : x ∈ l) :
    x ∈ insertSet y l := by
  unfold insertSet
  split
  · exact h
  · simp [h]

theorem mem_insertSet {x y : Int} {l : List Int} (h : x ∈ insertSet y l) :
    x = y ∨ x ∈ l := by
  unfold insertSet at h
  split at h
  · exact Or.inr h
  · simp only [List.mem_append, List.mem_singleton] at h
    exact h.symm

-- ---------------------------------------------------------------------------
-- C2: the winner's result entry
-- ---------------------------------------------------------------------------

theorem matchResult_single_alive (sim : BattleSimulation) (f : Bool)
    (mid : Nat) (snap : Snap) (w a b : Int)
    (halive : snap.alive = [w]) (hpair : pairFor sim mid = some (a, b))
    (hw : w = a ∨ w = b) (hab : a ≠ b) :
    matchResult sim f mid snap =
      some (some w,
        (insertSet b (insertSet a snap.participants)).filter (fun pid => pid ≠ w)) := by
  unfold matchResult
  rw [hpair]
  dsimp only
  rw [halive]
  dsimp only
  have hother : (if w = a then b else a) ∈
      insertSet b (insertSet a snap.participants) := by
    by_cases hwa : w = a
    · rw [if_pos hwa]
      exact mem_insertSet_self b _
    · rw [if_neg hwa]
      exact mem_insertSet_of_mem b (mem_insertSet_self a _)
  have hotherne : (if w = a then b else a) ≠ w := by
    by_cases hwa : w = a
    · rw [if_pos hwa]
      intro hc
      exact hab (hwa.symm.trans hc.symm)
    · rw [if_neg hwa]
      exact fun hc => hwa hc.symm
  have hne : (insertSet b (insertSet a snap.participants)).filter
      (fun pid => pid ≠ w) ≠ [] := by
    intro hempty
    have : (if w = a then b else a) ∈
        (insertSet b (insertSet a snap.participants)).filter (fun pid => pid ≠ w) := by
      rw [List.mem_filter]
      exact ⟨hother, by simpa using hotherne⟩
    rw [hempty] at this
    simp at this
  rw [if_neg hne]

theorem c2_result_mem (st : ServerState) (f : Bool) (mid : Nat) (snap : Snap)
    (w a b : Int) (hmem : (mid, snap) ∈ match_snapshots st.sim)
    (halive : snap.alive = [w]) (hpair : pairFor st.sim mid = some (a, b))
    (hw : w = a ∨ w = b) (hab : a ≠ b) :
    (some w,
      (insertSet b (insertSet a snap.participants)).filter (fun pid => pid ≠ w)) ∈
      computeResults st.sim f := by
  unfold computeResults
  exact List.mem_filterMap.mpr
    ⟨(mid, snap), hmem, matchResult_single_alive st.sim f mid snap w a b halive hpair hw hab⟩
-- ---------------------------------------------------------------------------
-- C2: unit removal reaches every unit of the owner
-- ---------------------------------------------------------------------------
theorem mem_id_unique : ∀ {l : List UnitState},
    (l.map (fun u => u.id)).Nodup →
    ∀ {u v : UnitState}, u ∈ l → v ∈ l → u.id = v.id → u = v
  | [], _, _, _, hu, _, _ => by simp at hu
  | w :: rest, hnd, u, v, hu, hv, hid => by
    simp only [List.map_cons, List.nodup_cons] at hnd
    rcases List.mem_cons.mp hu with hu1 | hu1 <;>
      rcases List.mem_cons.mp hv with hv1 | hv1
    · rw [hu1, hv1]
    · exfalso
      apply hnd.1
      rw [← hu1, hid]
      exact List.mem_map_of_mem (fun u => u.id) hv1
    · exfalso
      apply hnd.1
      rw [← hv1, ← hid]
      exact List.mem_map_of_mem (fun u => u.id) hu1
    · exact mem_id_unique hnd.2 hu1 hv1 hid
theorem not_mem_upop : ∀ {l : List UnitState},
    (l.map (fun u => u.id)).Nodup →
    ∀ {u : UnitState} {uid : UnitId}, u ∈ l → u.id = uid → u ∉ upop uid l
  | [], _, _, _, hu, _ => by simp at hu
  | v :: rest, hnd, u, uid, hu, hid => by
    simp only [List.map_cons, List.nodup_cons] at hnd
    by_cases hv : v.id = uid
    · simp only [upop, if_pos hv]
      rcases List.mem_cons.mp hu with hu1 | hu1
      · intro hc
        apply hnd.1
        rw [← hu1]
        exact List.mem_map_of_mem (fun u => u.id) hc
      · intro _
        apply hnd.1
        rw [hv, ← hid]
        exact List.mem_map_of_mem (fun u => u.id) hu1
    · simp only [upop, if_neg hv]
      intro hc
      rcases List.mem_cons.mp hc with hc1 | hc1
      · exact hv (hc1 ▸ hid)
      · rcases List.mem_cons.mp hu with hu1 | hu1
        · exact hv (hu1 ▸ hid)
        · exact not_mem_upop hnd.2 hu1 hid hc1
theorem removeOwner_fold (pid : Int) :
    ∀ (ids : List UnitId) (sim : BattleSimulation),
      (sim.units.map (fun u => u.id)).Nodup →
      (∀ u ∈ sim.units, u.owner_id = pid → u.id ∈ ids) →
      ((ids.foldl (removeOwnerStep pid) sim).units.map (fun u => u.id)).Nodup ∧
      (∀ u ∈ (ids.foldl (removeOwnerStep pid) sim).units, u ∈ sim.units) ∧
      (∀ u ∈ (ids.foldl (removeOwnerStep pid) sim).units, u.owner_id ≠ pid) := by
  intro ids
  induction ids with
  | nil =>
    intro sim hnd hcov
    refine ⟨hnd, fun u hu => hu, fun u hu hown => ?_⟩
    simpa using hcov u hu hown
  | cons uid rest ih =>
    intro sim hnd hcov
    simp only [List.foldl_cons]
    have hstep : (removeOwnerStep pid sim uid = sim ∧
        (∀ u ∈ sim.units, u.owner_id = pid → u.id ≠ uid)) ∨
        (∃ unit, uget uid sim.units = some unit ∧ unit.owner_id = pid ∧
          (removeOwnerStep pid sim uid).units = upop uid sim.units) := by
      unfold removeOwnerStep
      cases hget : uget uid sim.units with
      | none =>
        refine Or.inl ⟨rfl, fun u hu _ hc => ?_⟩
        exact uget_isSome_of_mem hu (hc ▸ hget)
      | some unit =>
        dsimp only
        by_cases hown : unit.owner_id = pid
        · rw [if_pos hown]
          exact Or.inr ⟨unit, rfl, hown, rfl⟩
        · rw [if_neg hown]
          refine Or.inl ⟨rfl, fun u hu hup hc => ?_⟩
          have : u = unit := mem_id_unique hnd hu (uget_mem hget) (hc ▸ (uget_id hget).symm)
          exact hown (this ▸ hup)
    rcases hstep with ⟨heq, hne⟩ | ⟨unit, hget, hown, hunits⟩
    · rw [heq]
      refine ih sim hnd (fun u hu hup => ?_)
      rcases List.mem_cons.mp (hcov u hu hup) with h1 | h1
      · exact absurd h1 (hne u hu hup)
      · exact h1
    · have hnd' : ((removeOwnerStep pid sim uid).units.map (fun u => u.id)).Nodup := by
        rw [hunits]
        exact ((upop_sublist uid sim.units).map (fun u => u.id)).nodup hnd
      have hsub : ∀ u ∈ (removeOwnerStep pid sim uid).units, u ∈ sim.units := by
        rw [hunits]
        exact fun u hu => mem_upop hu
      have hcov' : ∀ u ∈ (removeOwnerStep pid sim uid).units,
          u.owner_id = pid → u.id ∈ rest := by
        intro u hu hup
        have humem : u ∈ sim.units := hsub u hu
        rcases List.mem_cons.mp (hcov u humem hup) with h1 | h1
        · exfalso
          rw [hunits] at hu
          exact not_mem_upop hnd humem h1 hu
        · exact h1
      obtain ⟨h1, h2, h3⟩ := ih (removeOwnerStep pid sim uid) hnd' hcov'
      exact ⟨h1, fun u hu => hsub u (h2 u hu), h3⟩
theorem simRemoveOwner_owner (s : BattleSimulation) (pid : Int)
    (hnd : (s.units.map (fun u => u.id)).Nodup) :
    ∀ u ∈ (simRemoveOwner s pid).units, u.owner_id ≠ pid := by
  unfold simRemoveOwner
  exact (removeOwner_fold pid _ s hnd
    (fun u hu _ => List.mem_map_of_mem (fun x => x.id) hu)).2.2
theorem simRemoveOwner_subset (s : BattleSimulation) (pid : Int)
    (hnd : (s.units.map (fun u => u.id)).Nodup) :
    ∀ u ∈ (simRemoveOwner s pid).units, u ∈ s.units := by
  unfold simRemoveOwner
  exact (removeOwner_fold pid _ s hnd
    (fun u hu _ => List.mem_map_of_mem (fun x => x.id) hu)).2.1
theorem simRemoveOwner_nodup (s : BattleSimulation) (pid : Int)
    (hnd : (s.units.map (fun u => u.id)).Nodup) :
    ((simRemoveOwner s pid).units.map (fun u => u.id)).Nodup := by
  unfold simRemoveOwner
  exact (removeOwner_fold pid _ s hnd
    (fun u hu _ => List.mem_map_of_mem (fun x => x.id) hu)).1
-- ---------------------------------------------------------------------------
-- C2: applying the penalties
-- ---------------------------------------------------------------------------
theorem dget_sessions_map {lid : Int} :
    ∀ l : List (Int × PlayerSession),
      dget lid (l.map (fun ps => (ps.1, { ps.2 with ready := false }))) =
        (dget lid l).map (fun s => { s with ready := false })
  | [] => rfl
  | (k, v) :: rest => by
    by_cases hk : k = lid
    · simp [dget, hk]
    · simp only [List.map_cons, dget, if_neg hk]
      exact dget_sessions_map rest
theorem applyLoss_sessions_other {st : ServerState} {p lid : Int} (hne : p ≠ lid) :
    dget lid (applyLoss st p).sessions = dget lid st.sessions := by
  unfold applyLoss
  cases hp : dget p st.sessions with
  | none => rfl
  | some sess =>
    dsimp only
    split
    · split
      · unfold remove_units_for_player
        dsimp only
        rw [dget_dset_self]
        dsimp only
        rw [dget_dset_ne _ hne, dget_dset_ne _ hne]
      · exact dget_dset_ne _ hne _
    · rfl
theorem applyLoss_subset (st : ServerState) (p : Int)
    (hnd : (st.sim.units.map (fun u => u.id)).Nodup) :
    ∀ u ∈ (applyLoss st p).sim.units, u ∈ st.sim.units := by
  unfold applyLoss
  cases hp : dget p st.sessions with
  | none => exact fun u hu => hu
  | some sess =>
    dsimp only
    split
    · split
      · unfold remove_units_for_player
        dsimp only
        exact simRemoveOwner_subset _ _ hnd
      · exact fun u hu => hu
    · exact fun u hu => hu
theorem applyLoss_nodup (st : ServerState) (p : Int)
    (hnd : (st.sim.units.map (fun u => u.id)).Nodup) :
    ((applyLoss st p).sim.units.map (fun u => u.id)).Nodup := by
  unfold applyLoss
  cases hp : dget p st.sessions with
  | none => exact hnd
  | some sess =>
    dsimp only
    split
    · split
      · unfold remove_units_for_player
        dsimp only
        exact simRemoveOwner_nodup _ _ hnd
      · exact hnd
    · exact hnd
theorem applyLoss_self (st : ServerState) (lid : Int) (sess : PlayerSession)
    (hsess : dget lid st.sessions = some sess) (halive : sess.alive = true)
    (hnd : (st.sim.units.map (fun u => u.id)).Nodup) :
    ∃ sess', dget lid (applyLoss st lid).sessions = some sess' ∧
      sess'.health = sess.health - LOSS_HEALTH_PENALTY ∧
      (sess.health - LOSS_HEALTH_PENALTY ≤ 0 →
        sess'.alive = false ∧
        ∀ u ∈ (applyLoss st lid).sim.units, u.owner_id ≠ lid) ∧
      (0 < sess.health - LOSS_HEALTH_PENALTY → sess'.alive = true) := by
  unfold applyLoss
  rw [hsess]
  dsimp only
  rw [if_pos (by rw [halive])]
  split
  case _ helim =>
    unfold remove_units_for_player
    dsimp only
    rw [dget_dset_self]
    dsimp only
    refine ⟨_, dget_dset_self _ _ _, rfl, fun _ => ⟨rfl, ?_⟩, fun hpos => absurd helim (by omega)⟩
    exact simRemoveOwner_owner _ _ hnd
  case _ helim =>
    refine ⟨_, dget_dset_self _ _ _, rfl, fun hc => absurd hc helim, fun _ => halive⟩
theorem applyLoss_fold_pres (lid : Int) :
    ∀ (LL : List Int) (st : ServerState),
      (st.sim.units.map (fun u => u.id)).Nodup →
      ((LL.foldl applyLoss st).sim.units.map (fun u => u.id)).Nodup ∧
      (LL.count lid = 0 →
        dget lid (LL.foldl applyLoss st).sessions = dget lid st.sessions) ∧
      ((∀ u ∈ st.sim.units, u.owner_id ≠ lid) →
        ∀ u ∈ (LL.foldl applyLoss st).sim.units, u.owner_id ≠ lid) := by
  intro LL
  induction LL with
  | nil => exact fun st hnd => ⟨hnd, fun _ => rfl, fun h => h⟩
  | cons p rest ih =>
    intro st hnd
    simp only [List.foldl_cons]
    obtain ⟨ihnd, ihget, ihown⟩ := ih (applyLoss st p) (applyLoss_nodup st p hnd)
    refine ⟨ihnd, ?_, ?_⟩
    · intro hc
      simp only [List.count_cons] at hc
      have hpne : p ≠ lid := by
        intro hp
        simp [hp] at hc
      have hrest : rest.count lid = 0 := by
        omega
      rw [ihget hrest, applyLoss_sessions_other hpne]
    · intro habs
      refine ihown (fun u hu => habs u (applyLoss_subset st p hnd u hu))
theorem applyLoss_fold_once (lid : Int) (sess : PlayerSession) :
    ∀ (LL : List Int) (st : ServerState),
      LL.count lid = 1 →
      dget lid st.sessions = some sess → sess.alive = true →
      (st.sim.units.map (fun u => u.id)).Nodup →
      ∃ sess', dget lid (LL.foldl applyLoss st).sessions = some sess' ∧
        sess'.health = sess.health - LOSS_HEALTH_PENALTY ∧
        (sess.health - LOSS_HEALTH_PENALTY ≤ 0 →
          sess'.alive = false ∧
          ∀ u ∈ (LL.foldl applyLoss st).sim.units, u.owner_id ≠ lid) ∧
        (0 < sess.health - LOSS_HEALTH_PENALTY → sess'.alive = true) := by
  intro LL
  induction LL with
  | nil => intro st hc; simp at hc
  | cons p rest ih =>
    intro st hc hsess halive hnd
    simp only [List.foldl_cons]
    by_cases hp : p = lid
    · subst hp
      have hrest : rest.count p = 0 := by
        simp only [List.count_cons_self] at hc
        omega
      obtain ⟨sess', hget', hh, helim, hkeep⟩ := applyLoss_self st p sess hsess halive hnd
      obtain ⟨fnd, fget, fown⟩ := applyLoss_fold_pres p rest (applyLoss st p)
        (applyLoss_nodup st p hnd)
      refine ⟨sess', by rw [fget hrest]; exact hget', hh, ?_, hkeep⟩
      intro hle
      exact ⟨(helim hle).1, fown (helim hle).2⟩
    · have hlp : lid ≠ p := fun h => hp h.symm
      have hrest : rest.count lid = 1 := by
        simpa [List.count_cons, hlp] using hc
      have hsess' : dget lid (applyLoss st p).sessions = some sess := by
        rw [applyLoss_sessions_other hp, hsess]
      exact ih (applyLoss st p) hrest hsess' halive (applyLoss_nodup st p hnd)
-- ---------------------------------------------------------------------------
-- C2: end_combat preserves owner absence
-- ---------------------------------------------------------------------------
theorem restoreStep_owner (s : BattleSimulation) (uid : UnitId) (pid : Int)
    (habs : ∀ u ∈ s.units, u.owner_id ≠ pid) :
    ∀ u ∈ (restoreStep s uid).units, u.owner_id ≠ pid := by
  rcases restoreStep_cases s uid with ⟨hget, heq⟩ |
      ⟨unit, unit', occ1, hget, heq, hid, hstr, hcd, hown⟩
  · rw [heq]
    exact habs
  · rw [heq]
    intro u hu
    rcases mem_uset hu with rfl | hu
    · rw [hown]
      exact habs unit (uget_mem hget)
    · exact habs u hu
theorem restore_fold_owner (pid : Int) :
    ∀ (ids : List UnitId) (s : BattleSimulation),
      (∀ u ∈ s.units, u.owner_id ≠ pid) →
      ∀ u ∈ (ids.foldl restoreStep s).units, u.owner_id ≠ pid
  | [], s, habs => habs
  | uid :: rest, s, habs => by
    simp only [List.foldl_cons]
    exact restore_fold_owner pid rest _ (restoreStep_owner s uid pid habs)
theorem endNormalize_owner (u : UnitState) :
    (endNormalize u).owner_id = u.owner_id := by
  unfold endNormalize
  split
  · dsimp only
    split <;> rfl
  · rfl
theorem end_combat_owner (s : BattleSimulation) (pid : Int)
    (habs : ∀ u ∈ s.units, u.owner_id ≠ pid) :
    ∀ u ∈ (end_combat s).units, u.owner_id ≠ pid := by
  unfold end_combat restore_home_positions
  dsimp only
  intro u hu
  rcases List.mem_map.mp hu with ⟨v, hv, rfl⟩
  rw [endNormalize_owner]
  exact restore_fold_owner pid (s.units.map (fun u => u.id))
    { s with tile_occupants := [], bullets := [], phase := "placement" } habs v hv
-- ---------------------------------------------------------------------------
-- C2: the main theorem
-- ---------------------------------------------------------------------------
theorem foldl_losers (results : List (Option Int × List Int)) :
    ∀ st : ServerState,
      results.foldl (fun acc r => r.2.foldl applyLoss acc) st =
        ((results.map (fun r => r.2)).flatten).foldl applyLoss st := by
  induction results with
  | nil => intro st; rfl
  | cons r rest ih =>
    intro st
    simp only [List.foldl_cons, List.map_cons, List.flatten_cons, List.foldl_append]
    exact ih _
/-- C2: when a match's snapshot shows exactly one alive owner `w` and the
match's pair is `(a, b)` with distinct owners, `resolve_combat` reports
`(some w, losers)` with the losers being exactly the other participants, and
a loser `lid` with an alive session (appearing in no other match's loser
list, as pairs are disjoint) has its health reduced by
`LOSS_HEALTH_PENALTY`; if that health is now ≤ 0 the loser is marked
eliminated and every one of its units is removed from the engine. -/
theorem c2_single_alive_owner_wins
    (st : ServerState) (f : Bool) (mid : Nat) (snap : Snap)
    (w a b lid : Int) (sess : PlayerSession)
    (hmem : (mid, snap) ∈ match_snapshots st.sim)
    (halive : snap.alive = [w])
    (hpair : pairFor st.sim mid = some (a, b))
    (hw : w = a ∨ w = b) (hab : a ≠ b)
    (hlid : lid ∈ (insertSet b (insertSet a snap.participants)).filter
      (fun pid => pid ≠ w))
    (hcount : (((computeResults st.sim f).map (fun r => r.2)).flatten).count lid = 1)
    (hsess : dget lid st.sessions = some sess)
    (halive2 : sess.alive = true)
    (hnd : (st.sim.units.map (fun u => u.id)).Nodup) :
    ((some w, (insertSet b (insertSet a snap.participants)).filter
        (fun pid => pid ≠ w)) ∈ computeResults st.sim f) ∧
    (∀ p, p ∈ (insertSet b (insertSet a snap.participants)).filter
        (fun pid => pid ≠ w) ↔
      (p ∈ insertSet b (insertSet a snap.participants) ∧ p ≠ w)) ∧
    ∃ sess', dget lid (resolve_combat st f).sessions = some sess' ∧
      sess'.health = sess.health - LOSS_HEALTH_PENALTY ∧
      sess'.ready = false ∧
      (sess.health - LOSS_HEALTH_PENALTY ≤ 0 →
        sess'.alive = false ∧
        ∀ u ∈ (resolve_combat st f).sim.units, u.owner_id ≠ lid) ∧
      (0 < sess.health - LOSS_HEALTH_PENALTY → sess'.alive = true) := by
  refine ⟨c2_result_mem st f mid snap w a b hmem halive hpair hw hab, ?_, ?_⟩
  · intro p
    rw [List.mem_filter]
    simp
  · unfold resolve_combat
    dsimp only
    rw [foldl_losers]
    obtain ⟨sess', hget', hh, helim, hkeep⟩ :=
      applyLoss_fold_once lid sess _ st hcount hsess halive2 hnd
    refine ⟨{ sess' with ready := false }, ?_, hh, rfl, ?_, fun hpos => hkeep hpos⟩
    · rw [dget_sessions_map, hget']
      rfl
    · intro hle
      exact ⟨(helim hle).1, end_combat_owner _ lid (helim hle).2⟩
-- ---------------------------------------------------------------------------
-- C2 witness: a one-match state with a dead loser
-- ---------------------------------------------------------------------------
theorem c2_single_alive_owner_wins_witness :
    (some 0, (insertSet 1 (insertSet 0 c2wSnap.participants)).filter
      (fun pid => pid ≠ 0)) ∈ computeResults c2wState.sim false :=
  (c2_single_alive_owner_wins c2wState false 0 c2wSnap 0 0 1 1 (mkSession 1)
    (by with_unfolding_all decide) (by with_unfolding_all decide) rfl
    (Or.inl rfl) (by decide) (by with_unfolding_all decide)
    (by with_unfolding_all decide) (by with_unfolding_all decide)
    (by with_unfolding_all decide) (by with_unfolding_all decide)).1

end AutoBattler
